import Mathlib

/-! # TokPay offline-payment wallet: a shallow embedding and verification


This development embeds the core modules of the TokPay wallet
(`offlineToken.js`, `textEncoding.js`, `bleTransport.js` fragment
protocol, `cryptoUtils` QR signing, `qrGenerator` QR verification,
`sqliteWallet` balance operations, and the `walletService` orchestration
in `processOfflinePayment` / `processReceivedToken` /
`applyReceivedPaymentToken`) and proves or refutes the specification's
claims about them.

Modelling conventions:
* JavaScript strings are lists of UTF-16 code units (`JsStr := List Nat`),
  matching `charCodeAt` / `String.fromCharCode` semantics used by the code.
* Byte buffers (`Uint8Array`) are `List Nat` with elements `< 256`.
* JavaScript numbers carried by tokens (amount, timestamp, counter) are
  embedded as `Int` / `Nat`; wallet balances (SQLite `REAL`) as `ℚ`.
* Ed25519 (tweetnacl) is embedded as an idealized deterministic signature
  scheme: the unique valid signature of key `pk` over message `m` is the
  byte string `pk ++ m`.  `nacl.sign.detached` and
  `nacl.sign.detached.verify` are sign/check against this ideal scheme.
* `JSON.stringify` on the fixed record shapes used by the code is embedded
  as a concrete printer emitting the exact field order the code constructs,
  and `JSON.parse` of those shapes as a concrete parser.
-/

set_option maxRecDepth 10000

namespace TokPay

/-- JavaScript string: a list of UTF-16 code units (each `< 2^16`),
as read by `charCodeAt`. -/
abbrev JsStr := List Nat

/-- Embed an ASCII Lean string literal as a JavaScript string
(code units = code points for ASCII). -/
def strLit (s : String) : JsStr := s.data.map Char.toNat

/-! ## Decimal printing of numbers (`JSON.stringify` on integers)

JavaScript prints integral numbers in plain decimal.  `natStrAux` is a
fuel-indexed structural version of the obvious recursion so that it
reduces in the kernel. -/

/-- Decimal digits of `n`, most significant first (fuel-indexed). -/
def natStrAux : Nat → Nat → JsStr
  | 0, _ => []
  | f + 1, n => if n < 10 then [48 + n] else natStrAux f (n / 10) ++ [48 + n % 10]

/-- Decimal representation of a natural number, as code units. -/
def natStr (n : Nat) : JsStr := natStrAux (n + 1) n

/-- Decimal representation of an integer (minus sign code unit 45). -/
def intStr (n : Int) : JsStr :=
  if n < 0 then 45 :: natStr (-n).toNat else natStr n.toNat

/-! ## UTF-8 (module `textEncoding.js`)

`encodeUtf8` / `decodeUtf8` are hand-written in the source; they are
translated here verbatim, including the surrogate-pair handling and the
JavaScript behaviour on truncated input (`bytes[i]` past the end is
`undefined`, and `undefined & x = 0` in a bitwise expression). -/

/-- Emit the UTF-8 bytes of one code point (the branch ladder of
`encodeUtf8` in `textEncoding.js`). -/
def utf8Bytes (codePoint : Nat) : List Nat :=
  if codePoint ≤ 0x7f then [codePoint]
  else if codePoint ≤ 0x7ff then
    [0xc0 ||| (codePoint >>> 6), 0x80 ||| (codePoint &&& 0x3f)]
  else if codePoint ≤ 0xffff then
    [0xe0 ||| (codePoint >>> 12), 0x80 ||| ((codePoint >>> 6) &&& 0x3f),
     0x80 ||| (codePoint &&& 0x3f)]
  else
    [0xf0 ||| (codePoint >>> 18), 0x80 ||| ((codePoint >>> 12) &&& 0x3f),
     0x80 ||| ((codePoint >>> 6) &&& 0x3f), 0x80 ||| (codePoint &&& 0x3f)]

/-- Source `encodeUtf8` from `textEncoding.js`: JS string (code units) to UTF-8
bytes, combining surrogate pairs. -/
def encodeUtf8 : JsStr → List Nat
  | [] => []
  | [c0] => utf8Bytes c0
  | c0 :: c1 :: rest =>
    if 0xd800 ≤ c0 ∧ c0 ≤ 0xdbff then
      if 0xdc00 ≤ c1 ∧ c1 ≤ 0xdfff then
        utf8Bytes (((c0 - 0xd800) <<< 10) + (c1 - 0xdc00) + 0x10000) ++ encodeUtf8 rest
      else utf8Bytes c0 ++ encodeUtf8 (c1 :: rest)
    else utf8Bytes c0 ++ encodeUtf8 (c1 :: rest)

/-- Code point of a 2-byte UTF-8 sequence (`decodeUtf8`'s arithmetic;
a byte read past the end of the buffer enters as 0, the value JavaScript
`undefined` takes under bitwise operators). -/
def utf8TwoByte (b0 b1 : Nat) : Nat := ((b0 &&& 0x1f) <<< 6) ||| (b1 &&& 0x3f)

/-- Code point of a 3-byte UTF-8 sequence. -/
def utf8ThreeByte (b0 b1 b2 : Nat) : Nat :=
  (((b0 &&& 0x0f) <<< 12) ||| ((b1 &&& 0x3f) <<< 6)) ||| (b2 &&& 0x3f)

/-- Code point of a 4-byte UTF-8 sequence. -/
def utf8FourByte (b0 b1 b2 b3 : Nat) : Nat :=
  ((((b0 &&& 0x07) <<< 18) ||| ((b1 &&& 0x3f) <<< 12)) |||
    ((b2 &&& 0x3f) <<< 6)) ||| (b3 &&& 0x3f)

/-- The surrogate pair emitted for a supplementary code point. -/
def surrogatePair (cp : Nat) : JsStr :=
  [0xd800 ||| ((cp - 0x10000) >>> 10), 0xdc00 ||| ((cp - 0x10000) &&& 0x3ff)]

/-- Source `decodeUtf8` from `textEncoding.js`: UTF-8 bytes to UTF-16 code units.
The nested reads `bytes[i++]` are flattened into one pattern per
remaining-length class; reads past the end are 0 (JS `undefined` under
bitwise operators). -/
def decodeUtf8 : List Nat → JsStr
  | [] => []
  | [b0] =>
    if b0 &&& 0x80 = 0 then [b0]
    else if b0 &&& 0xe0 = 0xc0 then [utf8TwoByte b0 0]
    else if b0 &&& 0xf0 = 0xe0 then [utf8ThreeByte b0 0 0]
    else surrogatePair (utf8FourByte b0 0 0 0)
  | [b0, b1] =>
    if b0 &&& 0x80 = 0 then b0 :: decodeUtf8 [b1]
    else if b0 &&& 0xe0 = 0xc0 then [utf8TwoByte b0 b1]
    else if b0 &&& 0xf0 = 0xe0 then [utf8ThreeByte b0 b1 0]
    else surrogatePair (utf8FourByte b0 b1 0 0)
  | [b0, b1, b2] =>
    if b0 &&& 0x80 = 0 then b0 :: decodeUtf8 [b1, b2]
    else if b0 &&& 0xe0 = 0xc0 then utf8TwoByte b0 b1 :: decodeUtf8 [b2]
    else if b0 &&& 0xf0 = 0xe0 then [utf8ThreeByte b0 b1 b2]
    else surrogatePair (utf8FourByte b0 b1 b2 0)
  | b0 :: b1 :: b2 :: b3 :: r =>
    if b0 &&& 0x80 = 0 then b0 :: decodeUtf8 (b1 :: b2 :: b3 :: r)
    else if b0 &&& 0xe0 = 0xc0 then utf8TwoByte b0 b1 :: decodeUtf8 (b2 :: b3 :: r)
    else if b0 &&& 0xf0 = 0xe0 then utf8ThreeByte b0 b1 b2 :: decodeUtf8 (b3 :: r)
    else surrogatePair (utf8FourByte b0 b1 b2 b3) ++ decodeUtf8 r

/-! ## Base64 (library `base64-arraybuffer`, used by both modules) -/

/-- The base64 alphabet, as code units. -/
def b64Alphabet : JsStr :=
  strLit "ABCDEFGHIJKLMNOPQRSTUVWXYZabcdefghijklmnopqrstuvwxyz0123456789+/"

/-- Code unit of the base64 character for a 6-bit value. -/
def b64Char (v : Nat) : Nat := b64Alphabet.getD v 0

/-- 6-bit value of a base64 character (inverse table lookup). -/
def b64Val (c : Nat) : Nat := b64Alphabet.indexOf c

/-- Source `encode` from `base64-arraybuffer`: bytes to base64 text
(with `=` padding, code unit 61). -/
def encodeB64 : List Nat → JsStr
  | [] => []
  | [a] => [b64Char (a >>> 2), b64Char ((a &&& 3) <<< 4), 61, 61]
  | [a, b] =>
    [b64Char (a >>> 2), b64Char (((a &&& 3) <<< 4) ||| (b >>> 4)),
     b64Char ((b &&& 15) <<< 2), 61]
  | a :: b :: c :: rest =>
    b64Char (a >>> 2) :: b64Char (((a &&& 3) <<< 4) ||| (b >>> 4)) ::
      b64Char (((b &&& 15) <<< 2) ||| (c >>> 6)) :: b64Char (c &&& 63) :: encodeB64 rest

/-- Source `decode` from `base64-arraybuffer`: base64 text to bytes. -/
def decodeB64 : JsStr → List Nat
  | c0 :: c1 :: c2 :: c3 :: rest =>
    if c2 = 61 then [(b64Val c0 <<< 2) ||| (b64Val c1 >>> 4)]
    else if c3 = 61 then
      [(b64Val c0 <<< 2) ||| (b64Val c1 >>> 4),
       ((b64Val c1 &&& 15) <<< 4) ||| (b64Val c2 >>> 2)]
    else
      ((b64Val c0 <<< 2) ||| (b64Val c1 >>> 4)) ::
        (((b64Val c1 &&& 15) <<< 4) ||| (b64Val c2 >>> 2)) ::
        (((b64Val c2 &&& 3) <<< 6) ||| b64Val c3) :: decodeB64 rest
  | _ => []

/-! ## Idealized Ed25519 (tweetnacl) -/

/-- Public key bytes derived from a key seed (idealized key generation:
one byte, enough for the claims, which never need key injectivity). -/
def pkBytes (seed : Nat) : List Nat := [seed % 256]

/-- Idealized `nacl.sign.detached`: the unique signature of the key over
the message is the key bytes followed by the message bytes. -/
def naclSignDetached (seed : Nat) (message : List Nat) : List Nat :=
  pkBytes seed ++ message

/-- Idealized `nacl.sign.detached.verify`: a signature is valid iff it is
the unique signature of the given public key over the message. -/
def naclVerify (message signature publicKey : List Nat) : Bool :=
  signature = publicKey ++ message

/-! ## The offline token (module `offlineToken.js`) -/

/-- The token object assembled by `generateToken`, in its exact field
(insertion) order: `payer_pubkey`, `amount`, `payee_device_id`,
`timestamp`, `counter`, `payer_device_id`, then `signature` attached. -/
structure Token where
  payer_pubkey : JsStr
  amount : Int
  payee_device_id : JsStr
  timestamp : Int
  counter : Nat
  payer_device_id : JsStr
  signature : JsStr
deriving DecidableEq, Repr

/-- Source `JSON.stringify` of the five signed fields, in the insertion order the
code uses both when signing (`generateToken`) and when re-serializing for
verification (`verifyToken`). -/
def signedJson (pk : JsStr) (amount : Int) (payee : JsStr) (timestamp : Int)
    (counter : Nat) : JsStr :=
  strLit "\x7b\"payer_pubkey\":\"" ++ pk ++
  strLit "\",\"amount\":" ++ intStr amount ++
  strLit ",\"payee_device_id\":\"" ++ payee ++
  strLit "\",\"timestamp\":" ++ intStr timestamp ++
  strLit ",\"counter\":" ++ natStr counter ++
  strLit "\x7d"

/-- Source `JSON.stringify(token)` for a full token object (used by
`serializeToken`): all seven fields in insertion order. -/
def jsonOfToken (t : Token) : JsStr :=
  strLit "\x7b\"payer_pubkey\":\"" ++ t.payer_pubkey ++
  strLit "\",\"amount\":" ++ intStr t.amount ++
  strLit ",\"payee_device_id\":\"" ++ t.payee_device_id ++
  strLit "\",\"timestamp\":" ++ intStr t.timestamp ++
  strLit ",\"counter\":" ++ natStr t.counter ++
  strLit ",\"payer_device_id\":\"" ++ t.payer_device_id ++
  strLit "\",\"signature\":\"" ++ t.signature ++
  strLit "\"\x7d"

/-- Source `generateToken(amount, payeeDeviceId)` from `offlineToken.js`.

The ambient effects are made explicit: `keySeed` stands for the keypair
retrieved from the Keystore, `deviceId` for `getDeviceIdentity()`,
`nowMs` for `Date.now()`, and `counterBefore` for the module-level
mutable `tokenCounter` before the call.  Returns the token together with
the updated counter, or `none` where the code throws. -/
def generateToken (amount : Int) (payeeDeviceId : JsStr) (deviceId : JsStr)
    (keySeed : Nat) (nowMs : Int) (counterBefore : Nat) : Option (Token × Nat) :=
  if amount ≤ 0 then none
  else if payeeDeviceId = [] then none
  else
    let counter := counterBefore + 1
    let pk := encodeB64 (pkBytes keySeed)
    let message := encodeUtf8 (signedJson pk amount payeeDeviceId nowMs counter)
    let signature := encodeB64 (naclSignDetached keySeed message)
    some ({ payer_pubkey := pk, amount := amount, payee_device_id := payeeDeviceId,
            timestamp := nowMs, counter := counter, payer_device_id := deviceId,
            signature := signature }, counter)

/-- A token as received over the wire (output of `JSON.parse` on attacker
data): any of the fields the verifier inspects may be absent. -/
structure RxToken where
  payer_pubkey : Option JsStr := none
  amount : Option Int := none
  payee_device_id : Option JsStr := none
  timestamp : Option Int := none
  counter : Option Nat := none
  payer_device_id : Option JsStr := none
  signature : Option JsStr := none
deriving DecidableEq, Repr

/-- View a locally generated token as a received token. -/
def Token.toRx (t : Token) : RxToken :=
  { payer_pubkey := some t.payer_pubkey, amount := some t.amount,
    payee_device_id := some t.payee_device_id, timestamp := some t.timestamp,
    counter := some t.counter, payer_device_id := some t.payer_device_id,
    signature := some t.signature }

/-- Source `MAX_TOKEN_AGE` from `offlineToken.js`: 24 hours in milliseconds. -/
def maxTokenAge : Int := 24 * 60 * 60 * 1000

/-- Source `verifyToken(token)` from `offlineToken.js`.  `now` stands for
`Date.now()`.  The input is `none` when the argument is not an object.
The function returns a plain boolean — `false` for every failure.

Checks, in source order: required fields present (`'field' in token`),
`amount <= 0` rejected, one-sided age check
`Date.now() - token.timestamp > MAX_TOKEN_AGE` rejected, then Ed25519
signature over the re-serialized five signed fields against the embedded
`payer_pubkey`. -/
def verifyToken (token : Option RxToken) (now : Int) : Bool :=
  match token with
  | none => false
  | some t =>
    if t.payer_pubkey.isNone then false
    else if t.amount.isNone then false
    else if t.payee_device_id.isNone then false
    else if t.timestamp.isNone then false
    else if t.counter.isNone then false
    else if t.signature.isNone then false
    else if t.amount.getD 0 ≤ 0 then false
    else if now - t.timestamp.getD 0 > maxTokenAge then false
    else
      naclVerify
        (encodeUtf8 (signedJson (t.payer_pubkey.getD []) (t.amount.getD 0)
          (t.payee_device_id.getD []) (t.timestamp.getD 0) (t.counter.getD 0)))
        (decodeB64 (t.signature.getD []))
        (decodeB64 (t.payer_pubkey.getD []))

/-- Source `serializeToken` from `offlineToken.js`:
`base64(utf8(JSON.stringify(token)))`. -/
def serializeToken (t : Token) : JsStr :=
  encodeB64 (encodeUtf8 (jsonOfToken t))

/-! ### The token JSON parser (`JSON.parse` of the token wire shape) -/

/-- Strip an expected literal prefix. -/
def expectLit : JsStr → JsStr → Option JsStr
  | [], s => some s
  | _ :: _, [] => none
  | a :: l, b :: s => if a = b then expectLit l s else none

/-- Parse a JSON string body up to (and consuming) the closing quote. -/
def parseQuoted : JsStr → Option (JsStr × JsStr)
  | [] => none
  | c :: r =>
    if c = 34 then some ([], r)
    else match parseQuoted r with
      | some (f, rest) => some (c :: f, rest)
      | none => none

/-- Decimal digit? (code units 48–57). -/
def isDigit (c : Nat) : Bool := 48 ≤ c && c ≤ 57

/-- Parse a nonempty run of decimal digits as a natural number. -/
def parseNat (s : JsStr) : Option (Nat × JsStr) :=
  let ds := s.takeWhile isDigit
  if ds = [] then none
  else some (ds.foldl (fun a c => a * 10 + (c - 48)) 0, s.dropWhile isDigit)

/-- Parse an optionally negated decimal integer. -/
def parseInt (s : JsStr) : Option (Int × JsStr) :=
  match s with
  | 45 :: r => (parseNat r).map (fun p => (-(p.1 : Int), p.2))
  | _ => (parseNat s).map (fun p => ((p.1 : Int), p.2))

/-- Source `JSON.parse` specialized to the token wire shape emitted by
`serializeToken` (the seven fields in their fixed order). -/
def parseTokenJson (s0 : JsStr) : Option Token := do
  let s ← expectLit (strLit "\x7b\"payer_pubkey\":\"") s0
  let (pk, s) ← parseQuoted s
  let s ← expectLit (strLit ",\"amount\":") s
  let (amt, s) ← parseInt s
  let s ← expectLit (strLit ",\"payee_device_id\":\"") s
  let (payee, s) ← parseQuoted s
  let s ← expectLit (strLit ",\"timestamp\":") s
  let (ts, s) ← parseInt s
  let s ← expectLit (strLit ",\"counter\":") s
  let (ctr, s) ← parseNat s
  let s ← expectLit (strLit ",\"payer_device_id\":\"") s
  let (devId, s) ← parseQuoted s
  let s ← expectLit (strLit ",\"signature\":\"") s
  let (sig, s) ← parseQuoted s
  let s ← expectLit (strLit "\x7d") s
  if s = [] then
    some { payer_pubkey := pk, amount := amt, payee_device_id := payee,
           timestamp := ts, counter := ctr, payer_device_id := devId,
           signature := sig }
  else none

/-- Source `deserializeToken` from `offlineToken.js`:
`JSON.parse(decodeUtf8(base64decode(s)))`; `none` where the code throws. -/
def deserializeToken (s : JsStr) : Option Token :=
  parseTokenJson (decodeUtf8 (decodeB64 s))

/-! ## Wallet balance store (module `sqliteWallet.js`)

The SQLite store is embedded as explicit balance passing: each operation
takes the current stored balance and returns the new one, or the error
the code throws (in which case no UPDATE runs and the stored balance is
unchanged). -/

/-- Message of the `amount <= 0` throw in `addMoney` / `deductMoney`. -/
def errNotPositive : String := "Amount must be greater than 0"

/-- Static prefix of the insufficient-funds throw in `deductMoney`
(the source interpolates the balances into the message). -/
def errInsufficient : String := "Insufficient funds"

/-- Source `addMoney(amount)` from `sqliteWallet.js`, over stored balance. -/
def addMoney (amount balance : ℚ) : Except String ℚ :=
  if amount ≤ 0 then .error errNotPositive
  else .ok (balance + amount)

/-- Source `deductMoney(amount)` from `sqliteWallet.js`, over stored balance. -/
def deductMoney (amount balance : ℚ) : Except String ℚ :=
  if amount ≤ 0 then .error errNotPositive
  else if balance < amount then .error errInsufficient
  else .ok (balance - amount)

/-- Stored balance after an operation: updated on success, untouched when
the operation threw before its UPDATE statement. -/
def storedAfter (balance : ℚ) : Except String ℚ → ℚ
  | .ok nb => nb
  | .error _ => balance

/-! ## Wallet service orchestration (`walletService.js`) -/

/-- Result shape of `processReceivedToken`. -/
structure ReceiveResult where
  success : Bool
  amount : Int
deriving DecidableEq, Repr

/-- Source `processReceivedToken(token)`: verify, then report the token's amount;
no replay set, no double-spend guard, no balance change here. -/
def processReceivedToken (token : Option RxToken) (now : Int) : ReceiveResult :=
  if verifyToken token now then
    { success := true, amount := (token.bind (·.amount)).getD 0 }
  else { success := false, amount := 0 }

/-- Result shape of `applyReceivedPaymentToken`. -/
structure ApplyResult where
  success : Bool
  amount : Int
  newBalance : ℚ
deriving DecidableEq, Repr

/-- Source `applyReceivedPaymentToken(token)`: `processReceivedToken` then
`addMoney`.  Returns the reported result together with the stored wallet
balance after the call. -/
def applyReceivedPaymentToken (token : Option RxToken) (now : Int)
    (balance : ℚ) : ApplyResult × ℚ :=
  let r := processReceivedToken token now
  if r.success then
    match addMoney (r.amount : ℚ) balance with
    | .ok nb => ({ success := true, amount := r.amount, newBalance := nb }, nb)
    | .error _ => ({ success := false, amount := 0, newBalance := 0 }, balance)
  else ({ success := false, amount := 0, newBalance := 0 }, balance)

/-- The environment of one `processOfflinePayment` execution: the outcome
of each external step.  `ackArrives` records whether the receiver's
acknowledgment would reach the sender; the embedded code never reads it,
because the send flow contains no acknowledgment wait at all. -/
structure PayEnv where
  permissionsGranted : Bool
  scanConnectOk : Bool
  transmitOk : Bool
  ackArrives : Bool
deriving DecidableEq, Repr

/-- Result of `processOfflinePayment` (the `success` flag of the object
the function returns), together with the stored balance and the token
counter after the call. -/
structure PayOutcome where
  success : Bool
  balance : ℚ
  counter : Nat
deriving DecidableEq, Repr

/-- Source `processOfflinePayment(amount, payeeDeviceId)` from `walletService.js`:
permissions → `generateToken` → `scanAndConnect` → `sendToken` →
`deductMoney`.  The local debit runs immediately after the BLE
transmission step resolves; nothing in the flow waits for an
acknowledgment. -/
def processOfflinePayment (env : PayEnv) (amount : Int) (payee deviceId : JsStr)
    (keySeed : Nat) (nowMs : Int) (counterBefore : Nat) (balance : ℚ) : PayOutcome :=
  if ¬env.permissionsGranted then
    { success := false, balance := balance, counter := counterBefore }
  else
    match generateToken amount payee deviceId keySeed nowMs counterBefore with
    | none => { success := false, balance := balance, counter := counterBefore }
    | some (_, ctr) =>
      if ¬env.scanConnectOk then { success := false, balance := balance, counter := ctr }
      else if ¬env.transmitOk then { success := false, balance := balance, counter := ctr }
      else
        match deductMoney (amount : ℚ) balance with
        | .ok nb => { success := true, balance := nb, counter := ctr }
        | .error _ => { success := false, balance := balance, counter := ctr }

/-! ## Receive QR capability grant (`qrGenerator` + `cryptoUtils`) -/

/-- Source `TOKPAY_SERVICE_UUID` from `qrGenerator` (matches `bleTransport.js`). -/
def tokpayServiceUUID : JsStr := strLit "0000ffe0-0000-1000-8000-00805f9b34fb"

/-- Source `QR_EXPIRY_TIME_MS` from `qrGenerator`: 5 minutes. -/
def qrExpiryTimeMs : Int := 5 * 60 * 1000

/-- Connection bundle of a v2 grant. -/
structure GrantConn where
  device_id : JsStr
  device_name : JsStr
  ble_service_uuid : JsStr
  ephemeral_public_key : JsStr
deriving DecidableEq, Repr

/-- Transaction-intent bundle of a v2 grant. -/
structure GrantTx where
  intent : JsStr
  timestamp : Int
  nonce : JsStr
deriving DecidableEq, Repr

/-- A fully-populated v2 grant, as assembled by `generateReceiveQR`. -/
structure Grant where
  version : JsStr
  conn : GrantConn
  tx : GrantTx
  signature : JsStr
deriving DecidableEq, Repr

/-- Source `JSON.stringify` of a v2 grant payload without its signature, in the
insertion order `generateReceiveQR` assembles it
(`version`, `conn`, `tx`). -/
def jsonGrantV2NoSig (version : JsStr) (conn : GrantConn) (tx : GrantTx) : JsStr :=
  strLit "\x7b\"version\":\"" ++ version ++
  strLit "\",\"conn\":\x7b\"device_id\":\"" ++ conn.device_id ++
  strLit "\",\"device_name\":\"" ++ conn.device_name ++
  strLit "\",\"ble_service_uuid\":\"" ++ conn.ble_service_uuid ++
  strLit "\",\"ephemeral_public_key\":\"" ++ conn.ephemeral_public_key ++
  strLit "\"\x7d,\"tx\":\x7b\"intent\":\"" ++ tx.intent ++
  strLit "\",\"timestamp\":" ++ intStr tx.timestamp ++
  strLit ",\"nonce\":\"" ++ tx.nonce ++
  strLit "\"\x7d\x7d"

/-- Source `stringToUint8Array` from `cryptoUtils`: per-unit `charCodeAt` stored
into a `Uint8Array` (truncation mod 256). -/
def strBytes (s : JsStr) : List Nat := s.map (· % 256)

/-- Source `signQRPayload`: Ed25519 over the `charCodeAt` bytes of the payload
JSON, base64-encoded. -/
def signQRPayload (ephSeed : Nat) (payloadJson : JsStr) : JsStr :=
  encodeB64 (naclSignDetached ephSeed (strBytes payloadJson))

/-- Source `generateReceiveQR` from `qrGenerator`: validates inputs, assembles
the v2 connection and intent bundles, signs with the session ephemeral
key.  `ephSeed` stands for the session ephemeral keypair, `nowMs` for
`Date.now()`, `nonce` for `generateNonce()`. -/
def generateReceiveQR (deviceId deviceName : JsStr) (ephSeed : Nat)
    (nowMs : Int) (nonce : JsStr) : Option Grant :=
  if deviceId = [] ∨ deviceName = [] then none
  else
    let conn : GrantConn :=
      { device_id := deviceId, device_name := deviceName,
        ble_service_uuid := tokpayServiceUUID,
        ephemeral_public_key := encodeB64 (pkBytes ephSeed) }
    let tx : GrantTx :=
      { intent := strLit "receive", timestamp := nowMs, nonce := nonce }
    some { version := strLit "2.0", conn := conn, tx := tx,
           signature := signQRPayload ephSeed (jsonGrantV2NoSig (strLit "2.0") conn tx) }

/-- Received v2 connection bundle (fields may be absent). -/
structure RxConn where
  device_id : Option JsStr := none
  device_name : Option JsStr := none
  ble_service_uuid : Option JsStr := none
  ephemeral_public_key : Option JsStr := none
deriving DecidableEq, Repr

/-- Received v2 intent bundle (fields may be absent). -/
structure RxTx where
  intent : Option JsStr := none
  timestamp : Option Int := none
  nonce : Option JsStr := none
deriving DecidableEq, Repr

/-- A parsed QR payload as `verifyReceiveQR` receives it: either shape
(v1 flat fields or v2 nested bundles), everything optional. -/
structure RxGrant where
  version : Option JsStr := none
  device_id : Option JsStr := none
  device_name : Option JsStr := none
  ble_service_uuid : Option JsStr := none
  ephemeral_public_key : Option JsStr := none
  nonce : Option JsStr := none
  timestamp : Option Int := none
  conn : Option RxConn := none
  tx : Option RxTx := none
  signature : Option JsStr := none
deriving DecidableEq, Repr

/-- View a generated v2 grant as a received payload. -/
def Grant.toRx (g : Grant) : RxGrant :=
  { version := some g.version,
    conn := some { device_id := some g.conn.device_id,
                   device_name := some g.conn.device_name,
                   ble_service_uuid := some g.conn.ble_service_uuid,
                   ephemeral_public_key := some g.conn.ephemeral_public_key },
    tx := some { intent := some g.tx.intent, timestamp := some g.tx.timestamp,
                 nonce := some g.tx.nonce },
    signature := some g.signature }

/-- JavaScript truthiness of a possibly-missing string field
(`!payload[field]`): absent or empty is falsy. -/
def truthyS (o : Option JsStr) : Bool :=
  match o with
  | some s => !s.isEmpty
  | none => false

/-- JavaScript truthiness of a possibly-missing numeric field:
absent or zero is falsy. -/
def truthyI (o : Option Int) : Bool :=
  match o with
  | some n => n != 0
  | none => false

/-- Source `JSON.stringify` of a received v1 payload without its signature, in
the v1 QR payload field order documented in the source (`device_id`,
`device_name`, `ble_service_uuid`, `ephemeral_public_key`, `nonce`,
`timestamp`, `version`). -/
def rxGrantV1SignedJson (g : RxGrant) : JsStr :=
  strLit "\x7b\"device_id\":\"" ++ g.device_id.getD [] ++
  strLit "\",\"device_name\":\"" ++ g.device_name.getD [] ++
  strLit "\",\"ble_service_uuid\":\"" ++ g.ble_service_uuid.getD [] ++
  strLit "\",\"ephemeral_public_key\":\"" ++ g.ephemeral_public_key.getD [] ++
  strLit "\",\"nonce\":\"" ++ g.nonce.getD [] ++
  strLit "\",\"timestamp\":" ++ intStr (g.timestamp.getD 0) ++
  strLit ",\"version\":\"" ++ g.version.getD [] ++
  strLit "\"\x7d"

/-- Source `JSON.stringify` of a received v2 payload without its signature
(insertion order of the generator, which a verifying payload must match
for the signature bytes to agree). -/
def rxGrantV2SignedJson (g : RxGrant) : JsStr :=
  jsonGrantV2NoSig (g.version.getD [])
    { device_id := ((g.conn.map (·.device_id)).join).getD []
      device_name := ((g.conn.map (·.device_name)).join).getD []
      ble_service_uuid := ((g.conn.map (·.ble_service_uuid)).join).getD []
      ephemeral_public_key := ((g.conn.map (·.ephemeral_public_key)).join).getD [] }
    { intent := ((g.tx.map (·.intent)).join).getD []
      timestamp := ((g.tx.map (·.timestamp)).join).getD 0
      nonce := ((g.tx.map (·.nonce)).join).getD [] }

/-- Source `verifyQRSignature(payload, signature, publicKey)` from `cryptoUtils`,
applied to a canonical-order payload JSON. -/
def verifyQRSignature (payloadJson : JsStr) (signature publicKey : Option JsStr) : Bool :=
  naclVerify (strBytes payloadJson) (decodeB64 (signature.getD []))
    (decodeB64 (publicKey.getD []))

/-- Result of `verifyReceiveQR`: success flag and message (static part of
the source's message strings; interpolated suffixes omitted). -/
structure QrResult where
  success : Bool
  message : String
deriving DecidableEq, Repr

/-- The check chain of `verifyReceiveQR` on a successfully parsed
payload (`qrGenerator`). -/
def verifyReceiveQRPayload (p : RxGrant) (now : Int) : QrResult :=
    if p.version = some (strLit "1.0") then
      -- backward-compatible v1 path: truthiness of all eight flat fields
      if ¬truthyS p.device_id then
        { success := false, message := "Missing required field: device_id" }
      else if ¬truthyS p.device_name then
        { success := false, message := "Missing required field: device_name" }
      else if ¬truthyS p.ble_service_uuid then
        { success := false, message := "Missing required field: ble_service_uuid" }
      else if ¬truthyS p.ephemeral_public_key then
        { success := false, message := "Missing required field: ephemeral_public_key" }
      else if ¬truthyS p.nonce then
        { success := false, message := "Missing required field: nonce" }
      else if ¬truthyI p.timestamp then
        { success := false, message := "Missing required field: timestamp" }
      else if ¬truthyS p.signature then
        { success := false, message := "Missing required field: signature" }
      else if p.ble_service_uuid ≠ some tokpayServiceUUID then
        { success := false, message := "Invalid BLE service UUID" }
      else if now - p.timestamp.getD 0 > qrExpiryTimeMs then
        { success := false, message := "QR code expired" }
      else if ¬verifyQRSignature (rxGrantV1SignedJson p) p.signature p.ephemeral_public_key then
        { success := false, message := "Invalid signature" }
      else { success := true, message := "QR payload verified successfully" }
    else if p.version ≠ some (strLit "2.0") then
      { success := false, message := "Unsupported protocol version" }
    else
      -- v2 top-level fields (version just passed its check, so is truthy)
      if p.conn.isNone then
        { success := false, message := "Missing required field: conn" }
      else if p.tx.isNone then
        { success := false, message := "Missing required field: tx" }
      else if ¬truthyS p.signature then
        { success := false, message := "Missing required field: signature" }
      else if ¬truthyS (((p.conn.map (·.device_id)).join)) then
        { success := false, message := "Missing required BLE field: conn.device_id" }
      else if ¬truthyS (((p.conn.map (·.device_name)).join)) then
        { success := false, message := "Missing required BLE field: conn.device_name" }
      else if ¬truthyS (((p.conn.map (·.ble_service_uuid)).join)) then
        { success := false, message := "Missing required BLE field: conn.ble_service_uuid" }
      else if ¬truthyS (((p.conn.map (·.ephemeral_public_key)).join)) then
        { success := false, message := "Missing required BLE field: conn.ephemeral_public_key" }
      else if ((p.conn.map (·.ble_service_uuid)).join) ≠ some tokpayServiceUUID then
        { success := false, message := "Invalid BLE service UUID" }
      else if ¬truthyS (((p.tx.map (·.intent)).join)) then
        { success := false, message := "Missing required tx field: tx.intent" }
      else if ¬truthyI (((p.tx.map (·.timestamp)).join)) then
        { success := false, message := "Missing required tx field: tx.timestamp" }
      else if ¬truthyS (((p.tx.map (·.nonce)).join)) then
        { success := false, message := "Missing required tx field: tx.nonce" }
      else if ((p.tx.map (·.intent)).join) ≠ some (strLit "receive") then
        { success := false, message := "Unsupported tx intent" }
      else if now - (((p.tx.map (·.timestamp)).join).getD 0) > qrExpiryTimeMs then
        { success := false, message := "QR intent expired" }
      else if ¬verifyQRSignature (rxGrantV2SignedJson p) p.signature
          ((p.conn.map (·.ephemeral_public_key)).join) then
        { success := false, message := "Invalid signature" }
      else { success := true, message := "QR payload verified successfully" }

/-- Source `verifyReceiveQR(qrString)` from `qrGenerator`.  The input is `none`
when `JSON.parse` throws.  `now` stands for `Date.now()`. -/
def verifyReceiveQR (payload : Option RxGrant) (now : Int) : QrResult :=
  match payload with
  | none => { success := false, message := "Verification failed" }
  | some p => verifyReceiveQRPayload p now

/-! ## BLE fragmentation and reassembly (`bleTransport.js`) -/

/-- The fragment substrings `sendToken` produces: `substring(i, i+L)` for
`i = 0, L, 2L, …` (fuel-indexed; `L ≥ 1` consumes the string). -/
def chunkFragsAux (L : Nat) : Nat → JsStr → List JsStr
  | 0, _ => []
  | f + 1, s => if s.isEmpty then [] else s.take L :: chunkFragsAux L f (s.drop L)

/-- All fragments of a payload at fragment length `L`. -/
def chunkFrags (s : JsStr) (L : Nat) : List JsStr := chunkFragsAux L s.length s

/-- One wire chunk: `${i}/${totalChunks}:${fragment}`. -/
def chunkMsg (i total : Nat) (frag : JsStr) : JsStr :=
  natStr i ++ [47] ++ natStr total ++ [58] ++ frag

/-- Tag each fragment with its index and the total count. -/
def mkMsgsAux (total : Nat) : Nat → List JsStr → List JsStr
  | _, [] => []
  | i, f :: r => chunkMsg i total f :: mkMsgsAux total (i + 1) r

/-- The chunk sequence `sendToken` writes for a payload at length `L`. -/
def sendMsgs (s : JsStr) (L : Nat) : List JsStr :=
  mkMsgsAux (chunkFrags s L).length 0 (chunkFrags s L)

/-- Source `String.prototype.split(sep)` (single-unit separator). -/
def splitOnSep (sep : Nat) : JsStr → List JsStr
  | [] => [[]]
  | c :: r =>
    if c = sep then [] :: splitOnSep sep r
    else
      match splitOnSep sep r with
      | h :: t => (c :: h) :: t
      | [] => [[c]]

/-- Source `Number(str)` restricted to the well-formed decimal case; `none`
stands for `NaN` (a malformed frame, which `sendToken` never emits, can
then never complete a reassembly — such frames are modelled as ignored). -/
def jsNumber (s : JsStr) : Option Nat :=
  if s.isEmpty then none
  else if s.all isDigit then some (s.foldl (fun a c => a * 10 + (c - 48)) 0)
  else none

/-- Receiver reassembly state of `receiveToken`: the `receivedChunks`
object (distinct integer keys) and `expectedChunks`. -/
structure RecvState where
  chunks : List (Nat × JsStr) := []
  expected : Nat := 0
deriving DecidableEq, Repr

/-- Source `receivedChunks[currentIndex] = chunkData` (object key overwrite). -/
def insertChunk : List (Nat × JsStr) → Nat → JsStr → List (Nat × JsStr)
  | [], i, d => [(i, d)]
  | (j, e) :: r, i, d => if i = j then (i, d) :: r else (j, e) :: insertChunk r i d

/-- The reconstruction loop: `for i in 0..expected-1:
fullTokenString += receivedChunks[i]` — a missing key is JavaScript
`undefined` and concatenates as the string `"undefined"`. -/
def reassemble (chunks : List (Nat × JsStr)) (expected : Nat) : JsStr :=
  (List.range expected).foldl
    (fun acc i => acc ++ ((chunks.lookup i).getD (strLit "undefined"))) []

/-- One `monitorCharacteristic` notification of `receiveToken`: parse
`index/total:data`, store the fragment, set `expectedChunks`, and emit the
reassembled payload string once the key count reaches the expected count
(the emitted string is then handed to `deserializeToken`). -/
def processChunk (st : RecvState) (raw : JsStr) : RecvState × Option JsStr :=
  match splitOnSep 58 raw with
  | chunkInfo :: chunkData :: _ =>
    match splitOnSep 47 chunkInfo with
    | idxStr :: totStr :: _ =>
      match jsNumber idxStr, jsNumber totStr with
      | some idx, some tot =>
        let chunks := insertChunk st.chunks idx chunkData
        if chunks.length = tot then
          ({ chunks := [], expected := 0 }, some (reassemble chunks tot))
        else ({ chunks := chunks, expected := tot }, none)
      | _, _ => (st, none)
    | _ => (st, none)
  | _ => (st, none)

/-- Run the receiver over a delivery sequence, collecting every payload
string delivered to the callback. -/
def runReceiver (st : RecvState) : List JsStr → RecvState × List JsStr
  | [] => (st, [])
  | e :: r =>
    let step := processChunk st e
    let rest := runReceiver step.1 r
    (rest.1, step.2.toList ++ rest.2)

/-! ## Auxiliary predicates used by the statements -/

/-- A plain printable ASCII code unit that `JSON.stringify` copies
verbatim (no escaping): not a quote, not a backslash, no control
characters, 7-bit. -/
def unitOk (c : Nat) : Prop := 32 ≤ c ∧ c ≤ 127 ∧ c ≠ 34 ∧ c ≠ 92

instance (c : Nat) : Decidable (unitOk c) := by unfold unitOk; infer_instance

/-- All code units of a string are plain printable ASCII. -/
def strOk (s : JsStr) : Prop := ∀ c ∈ s, unitOk c

instance (s : JsStr) : Decidable (strOk s) := by unfold strOk; infer_instance

/-- A valid token record: string fields are plain ASCII (as the base64
and UUID strings the code produces are) and the numeric fields are exact
JavaScript integers (below `2^53`). -/
def TokenValid (t : Token) : Prop :=
  strOk t.payer_pubkey ∧ strOk t.payee_device_id ∧ strOk t.payer_device_id ∧
  strOk t.signature ∧
  t.amount.natAbs < 2 ^ 53 ∧ t.timestamp.natAbs < 2 ^ 53 ∧ t.counter < 2 ^ 53

instance (t : Token) : Decidable (TokenValid t) := by unfold TokenValid; infer_instance

/-- Source `needle` is a leading prefix of `hay`. -/
def leadsJs : JsStr → JsStr → Bool
  | [], _ => true
  | _ :: _, [] => false
  | a :: l, b :: s => a = b && leadsJs l s

/-- Source `String.prototype.includes`: does `hay` contain `needle`? -/
def containsSub (needle : JsStr) : JsStr → Bool
  | [] => needle.isEmpty
  | c :: r => leadsJs needle (c :: r) || containsSub needle r

/-! ## Concrete sample values used by the closed theorems and witnesses -/

/-- A concrete valid token used by the witnesses. -/
def sampleToken : Token :=
  { payer_pubkey := strLit "Bw==", amount := 100, payee_device_id := strLit "m",
    timestamp := 12345, counter := 1, payer_device_id := strLit "d",
    signature := strLit "BxAq" }

/-- The concrete generated token used by several witnesses. -/
def genSample : Token × Nat :=
  (generateToken 100 (strLit "m") (strLit "d") 7 12345 0).get (by decide)

/-- The failing environment for C2: every transport step succeeds but no
acknowledgment ever arrives from the receiver. -/
def envNoAck : PayEnv :=
  { permissionsGranted := true, scanConnectOk := true, transmitOk := true,
    ackArrives := false }

/-- The token generated inside the C2 failing execution. -/
def sentToken : Token × Nat :=
  (generateToken 300 (strLit "m") (strLit "d") 7 12345 0).get (by decide)

/-- First issuance of the first app session (module state
`tokenCounter = 0`). -/
def sessionOneFirst : Token × Nat :=
  (generateToken 100 (strLit "m") (strLit "d") 7 1000 0).get (by decide)

/-- Second issuance of the same session (counter carried over). -/
def sessionOneSecond : Token × Nat :=
  (generateToken 50 (strLit "m") (strLit "d") 7 2000 sessionOneFirst.2).get (by decide)

/-- First issuance after an app restart: the module-level `let
tokenCounter = 0` re-initializes, so the counter starts over. -/
def sessionTwoFirst : Token × Nat :=
  (generateToken 80 (strLit "m") (strLit "d") 7 3000 0).get (by decide)

/-- A token signed over a timestamp far in the future (`10^13` ms, with
verification at `now = 0`). -/
def futureToken : Token × Nat :=
  (generateToken 100 (strLit "m") (strLit "d") 7 10000000000000 0).get (by decide)

/-- A well-formed v2 grant issued at `t = 0` (verified 60 seconds
later in the counterexample). -/
def lateGrant : Grant :=
  (generateReceiveQR (strLit "dev1") (strLit "Pixel") 9 1000 (strLit "NN")).get (by decide)

/-! # Lemmas -/

/-! ## Bitwise arithmetic on bytes (bounded facts, discharged by `decide`) -/

theorem shr2_eq_div (a : Nat) (h : a < 256) : a >>> 2 = a / 4 := by
  have : ∀ x : Fin 256, (x : Nat) >>> 2 = (x : Nat) / 4 := by decide
  exact this ⟨a, h⟩

theorem and3_eq_mod (a : Nat) (h : a < 256) : a &&& 3 = a % 4 := by
  have : ∀ x : Fin 256, (x : Nat) &&& 3 = (x : Nat) % 4 := by decide
  exact this ⟨a, h⟩

theorem shr4_eq_div (a : Nat) (h : a < 256) : a >>> 4 = a / 16 := by
  have : ∀ x : Fin 256, (x : Nat) >>> 4 = (x : Nat) / 16 := by decide
  exact this ⟨a, h⟩

theorem and15_eq_mod (a : Nat) (h : a < 256) : a &&& 15 = a % 16 := by
  have : ∀ x : Fin 256, (x : Nat) &&& 15 = (x : Nat) % 16 := by decide
  exact this ⟨a, h⟩

theorem shr6_eq_div (a : Nat) (h : a < 256) : a >>> 6 = a / 64 := by
  have : ∀ x : Fin 256, (x : Nat) >>> 6 = (x : Nat) / 64 := by decide
  exact this ⟨a, h⟩

theorem and63_eq_mod (a : Nat) (h : a < 256) : a &&& 63 = a % 64 := by
  have : ∀ x : Fin 256, (x : Nat) &&& 63 = (x : Nat) % 64 := by decide
  exact this ⟨a, h⟩

theorem shl4_or_eq (p q : Nat) (hp : p < 4) (hq : q < 16) :
    (p <<< 4) ||| q = 16 * p + q := by
  have : ∀ (x : Fin 4) (y : Fin 16), ((x : Nat) <<< 4) ||| (y : Nat) = 16 * x + y := by decide
  exact this ⟨p, hp⟩ ⟨q, hq⟩

theorem shl2_or_eq (p q : Nat) (hp : p < 16) (hq : q < 4) :
    (p <<< 2) ||| q = 4 * p + q := by
  have : ∀ (x : Fin 16) (y : Fin 4), ((x : Nat) <<< 2) ||| (y : Nat) = 4 * x + y := by decide
  exact this ⟨p, hp⟩ ⟨q, hq⟩

theorem shl2_or_eq64 (p q : Nat) (hp : p < 64) (hq : q < 4) :
    (p <<< 2) ||| q = 4 * p + q := by
  have : ∀ (x : Fin 64) (y : Fin 4), ((x : Nat) <<< 2) ||| (y : Nat) = 4 * x + y := by decide
  exact this ⟨p, hp⟩ ⟨q, hq⟩

theorem shl4_or_eq16 (p q : Nat) (hp : p < 16) (hq : q < 16) :
    (p <<< 4) ||| q = 16 * p + q := by
  have : ∀ (x : Fin 16) (y : Fin 16), ((x : Nat) <<< 4) ||| (y : Nat) = 16 * x + y := by decide
  exact this ⟨p, hp⟩ ⟨q, hq⟩

theorem shl6_or_eq (p q : Nat) (hp : p < 4) (hq : q < 64) :
    (p <<< 6) ||| q = 64 * p + q := by
  have : ∀ (x : Fin 4) (y : Fin 64), ((x : Nat) <<< 6) ||| (y : Nat) = 64 * x + y := by decide
  exact this ⟨p, hp⟩ ⟨q, hq⟩

/-! ## Base64 alphabet facts -/

theorem b64Val_b64Char (v : Nat) (h : v < 64) : b64Val (b64Char v) = v := by
  have : ∀ x : Fin 64, b64Val (b64Char (x : Nat)) = (x : Nat) := by decide
  exact this ⟨v, h⟩

theorem b64Char_ne_61 (v : Nat) (h : v < 64) : b64Char v ≠ 61 := by
  have : ∀ x : Fin 64, b64Char (x : Nat) ≠ 61 := by decide
  exact this ⟨v, h⟩

theorem b64Char_ne_58 (v : Nat) : b64Char v ≠ 58 := by
  by_cases h : v < 64
  · have : ∀ x : Fin 64, b64Char (x : Nat) ≠ 58 := by decide
    exact this ⟨v, h⟩
  · have hlen : b64Alphabet.length = 64 := by decide
    unfold b64Char
    rw [List.getD_eq_default]
    · decide
    · omega

theorem shl4_eq (p : Nat) (hp : p < 16) : p <<< 4 = 16 * p := by
  have : ∀ x : Fin 16, (x : Nat) <<< 4 = 16 * x := by decide
  exact this ⟨p, hp⟩

theorem shl2_eq (p : Nat) (hp : p < 16) : p <<< 2 = 4 * p := by
  have : ∀ x : Fin 16, (x : Nat) <<< 2 = 4 * x := by decide
  exact this ⟨p, hp⟩

/-! ## Base64 round trip -/

/-- Byte-list version of `decode(encode(bytes)) = bytes` for the base64
codec, the property underlying `serializeToken`/`deserializeToken`. -/
theorem decodeB64_encodeB64 :
    ∀ l : List Nat, (∀ b ∈ l, b < 256) → decodeB64 (encodeB64 l) = l := by
  intro l
  induction l using encodeB64.induct with
  | case1 => intro; rfl
  | case2 a =>
    intro hb
    have ha : a < 256 := hb a (by simp)
    show decodeB64 [b64Char (a >>> 2), b64Char ((a &&& 3) <<< 4), 61, 61] = [a]
    rw [shr2_eq_div a ha, and3_eq_mod a ha, shl4_eq (a % 4) (by omega)]
    have hv1 : a / 4 < 64 := by omega
    have hv2 : 16 * (a % 4) < 64 := by omega
    show decodeB64 [b64Char (a / 4), b64Char (16 * (a % 4)), 61, 61] = [a]
    unfold decodeB64
    rw [if_pos rfl, b64Val_b64Char _ hv1, b64Val_b64Char _ hv2]
    rw [shr4_eq_div _ (by omega)]
    rw [shl2_or_eq64 (a / 4) (16 * (a % 4) / 16) hv1 (by omega)]
    congr 1
    omega
  | case3 a b =>
    intro hb
    have ha : a < 256 := hb a (by simp)
    have hbb : b < 256 := hb b (by simp)
    show decodeB64 [b64Char (a >>> 2), b64Char (((a &&& 3) <<< 4) ||| (b >>> 4)),
      b64Char ((b &&& 15) <<< 2), 61] = [a, b]
    rw [shr2_eq_div a ha, and3_eq_mod a ha, shr4_eq_div b hbb,
      and15_eq_mod b hbb, shl4_or_eq (a % 4) (b / 16) (by omega) (by omega),
      shl2_eq (b % 16) (by omega)]
    have hv1 : a / 4 < 64 := by omega
    have hv2 : 16 * (a % 4) + b / 16 < 64 := by omega
    have hv3 : 4 * (b % 16) < 64 := by omega
    unfold decodeB64
    rw [if_neg (b64Char_ne_61 _ hv3), if_pos rfl,
      b64Val_b64Char _ hv1, b64Val_b64Char _ hv2, b64Val_b64Char _ hv3]
    rw [shr4_eq_div _ (by omega), shl2_or_eq64 (a / 4) _ hv1 (by omega),
      and15_eq_mod _ (by omega), shr2_eq_div _ (by omega),
      shl4_or_eq16 ((16 * (a % 4) + b / 16) % 16) (4 * (b % 16) / 4) (by omega) (by omega)]
    congr 1
    · omega
    · congr 1
      omega
  | case4 a b c rest ih =>
    intro hb
    have ha : a < 256 := hb a (by simp)
    have hbb : b < 256 := hb b (by simp)
    have hc : c < 256 := hb c (by simp)
    have hrest : ∀ x ∈ rest, x < 256 := fun x hx => hb x (by simp [hx])
    show decodeB64 (b64Char (a >>> 2) :: b64Char (((a &&& 3) <<< 4) ||| (b >>> 4)) ::
      b64Char (((b &&& 15) <<< 2) ||| (c >>> 6)) :: b64Char (c &&& 63) ::
      encodeB64 rest) = a :: b :: c :: rest
    rw [shr2_eq_div a ha, and3_eq_mod a ha, shr4_eq_div b hbb,
      and15_eq_mod b hbb, shr6_eq_div c hc, and63_eq_mod c hc,
      shl4_or_eq (a % 4) (b / 16) (by omega) (by omega),
      shl2_or_eq (b % 16) (c / 64) (by omega) (by omega)]
    have hv1 : a / 4 < 64 := by omega
    have hv2 : 16 * (a % 4) + b / 16 < 64 := by omega
    have hv3 : 4 * (b % 16) + c / 64 < 64 := by omega
    have hv4 : c % 64 < 64 := by omega
    unfold decodeB64
    rw [if_neg (b64Char_ne_61 _ hv3), if_neg (b64Char_ne_61 _ hv4),
      b64Val_b64Char _ hv1, b64Val_b64Char _ hv2, b64Val_b64Char _ hv3,
      b64Val_b64Char _ hv4]
    rw [shr4_eq_div _ (by omega), shl2_or_eq64 (a / 4) _ hv1 (by omega),
      and15_eq_mod _ (by omega), shr2_eq_div _ (by omega),
      shl4_or_eq16 ((16 * (a % 4) + b / 16) % 16) ((4 * (b % 16) + c / 64) / 4)
        (by omega) (by omega),
      and3_eq_mod _ (by omega),
      shl6_or_eq ((4 * (b % 16) + c / 64) % 4) (c % 64) (by omega) (by omega)]
    rw [ih hrest]
    congr 1
    · omega
    · congr 1
      · omega
      · congr 1
        omega

/-- Base64 output never contains a colon (code unit 58): its characters
are the 64 alphabet characters and `=` (61). -/
theorem encodeB64_no_colon : ∀ l : List Nat, 58 ∉ encodeB64 l := by
  intro l
  induction l using encodeB64.induct with
  | case1 => simp [encodeB64]
  | case2 a =>
    show 58 ∉ [b64Char (a >>> 2), b64Char ((a &&& 3) <<< 4), 61, 61]
    simp only [List.mem_cons, List.not_mem_nil, or_false]
    push_neg
    exact ⟨(b64Char_ne_58 _).symm, (b64Char_ne_58 _).symm, by omega, by omega⟩
  | case3 a b =>
    show 58 ∉ [b64Char (a >>> 2), b64Char (((a &&& 3) <<< 4) ||| (b >>> 4)),
      b64Char ((b &&& 15) <<< 2), 61]
    simp only [List.mem_cons, List.not_mem_nil, or_false]
    push_neg
    exact ⟨(b64Char_ne_58 _).symm, (b64Char_ne_58 _).symm, (b64Char_ne_58 _).symm, by omega⟩
  | case4 a b c rest ih =>
    show 58 ∉ b64Char (a >>> 2) :: b64Char (((a &&& 3) <<< 4) ||| (b >>> 4)) ::
      b64Char (((b &&& 15) <<< 2) ||| (c >>> 6)) :: b64Char (c &&& 63) :: encodeB64 rest
    simp only [List.mem_cons]
    push_neg
    exact ⟨(b64Char_ne_58 _).symm, (b64Char_ne_58 _).symm, (b64Char_ne_58 _).symm,
      (b64Char_ne_58 _).symm, ih⟩

/-! ## UTF-8 on ASCII strings -/

theorem utf8Bytes_ascii (c : Nat) (h : c ≤ 127) : utf8Bytes c = [c] := by
  unfold utf8Bytes
  rw [if_pos (by omega)]

/-- An ASCII code unit encodes to itself and the encoder then continues
with the tail. -/
theorem encodeUtf8_cons_ascii (c : Nat) (h : c ≤ 127) (t : JsStr) :
    encodeUtf8 (c :: t) = c :: encodeUtf8 t := by
  cases t with
  | nil => simp [encodeUtf8, utf8Bytes_ascii c h]
  | cons c1 rest =>
    show encodeUtf8 (c :: c1 :: rest) = c :: encodeUtf8 (c1 :: rest)
    conv_lhs => simp only [encodeUtf8]
    rw [if_neg (by omega), utf8Bytes_ascii c h]
    simp

/-- Source `encodeUtf8` is the identity on ASCII strings. -/
theorem encodeUtf8_ascii (l : JsStr) (h : ∀ c ∈ l, c ≤ 127) : encodeUtf8 l = l := by
  induction l with
  | nil => rfl
  | cons c t ih =>
    rw [encodeUtf8_cons_ascii c (h c (by simp)) t,
      ih (fun x hx => h x (by simp [hx]))]

theorem and128_eq_zero (c : Nat) (h : c ≤ 127) : c &&& 128 = 0 := by
  have : ∀ x : Fin 128, (x : Nat) &&& 128 = 0 := by decide
  exact this ⟨c, by omega⟩

/-- Single ASCII decoding step: an ASCII byte decodes to itself and the
decoder continues with the tail. -/
theorem decodeUtf8_cons_ascii (c : Nat) (h : c ≤ 127) (t : List Nat) :
    decodeUtf8 (c :: t) = c :: decodeUtf8 t := by
  have hc := and128_eq_zero c h
  match t with
  | [] => simp only [decodeUtf8, hc, if_true, if_pos]
  | [b1] => simp only [decodeUtf8, hc, if_true, if_pos]
  | [b1, b2] => simp only [decodeUtf8, hc, if_true, if_pos]
  | b1 :: b2 :: b3 :: r => simp only [decodeUtf8, hc, if_true, if_pos]

/-- Source `decodeUtf8` is the identity on ASCII byte strings. -/
theorem decodeUtf8_ascii (l : List Nat) (h : ∀ c ∈ l, c ≤ 127) : decodeUtf8 l = l := by
  induction l with
  | nil => rfl
  | cons c t ih =>
    rw [decodeUtf8_cons_ascii c (h c (by simp)) t,
      ih (fun x hx => h x (by simp [hx]))]

/-! ## Decimal printing and parsing -/

/-- Characterization of `natStrAux` under sufficient fuel: digit range,
nonemptiness, and the value read back by the parser's left fold. -/
theorem natStrAux_spec :
    ∀ f n, n < f →
      (∀ c ∈ natStrAux f n, 48 ≤ c ∧ c ≤ 57) ∧ natStrAux f n ≠ [] ∧
      ∀ acc : Nat, (natStrAux f n).foldl (fun a c => a * 10 + (c - 48)) acc =
        acc * 10 ^ (natStrAux f n).length + n := by
  intro f
  induction f with
  | zero => omega
  | succ f ih =>
    intro n hn
    by_cases h10 : n < 10
    · have heq : natStrAux (f + 1) n = [48 + n] := by
        simp only [natStrAux, if_pos h10]
      refine ⟨?_, ?_, ?_⟩
      · intro c hc
        rw [heq] at hc
        simp at hc
        omega
      · rw [heq]; simp
      · intro acc
        rw [heq]
        simp only [List.foldl_cons, List.foldl_nil, List.length_cons,
          List.length_nil, pow_one, zero_add, pow_zero]
        omega
    · have hrec : n / 10 < f := by omega
      obtain ⟨hdig, hne, hval⟩ := ih (n / 10) hrec
      have heq : natStrAux (f + 1) n = natStrAux f (n / 10) ++ [48 + n % 10] := by
        simp only [natStrAux, if_neg h10]
      refine ⟨?_, ?_, ?_⟩
      · intro c hc
        rw [heq] at hc
        rcases List.mem_append.1 hc with h | h
        · exact hdig c h
        · simp at h; omega
      · rw [heq]; simp
      · intro acc
        rw [heq, List.foldl_append, hval acc, List.length_append]
        simp only [List.foldl_cons, List.foldl_nil, List.length_cons, List.length_nil]
        have : 48 + n % 10 - 48 = n % 10 := by omega
        rw [this, pow_succ]
        ring_nf
        omega

/-- All code units of `natStr n` are decimal digits. -/
theorem natStr_digits (n : Nat) : ∀ c ∈ natStr n, 48 ≤ c ∧ c ≤ 57 :=
  (natStrAux_spec (n + 1) n (by omega)).1

theorem natStr_ne_nil (n : Nat) : natStr n ≠ [] :=
  (natStrAux_spec (n + 1) n (by omega)).2.1

/-- The parser's digit fold reads `natStr n` back as `n`. -/
theorem natStr_foldl (n : Nat) :
    (natStr n).foldl (fun a c => a * 10 + (c - 48)) 0 = n := by
  have := (natStrAux_spec (n + 1) n (by omega)).2.2 0
  simpa using this

/-- Source `takeWhile` runs through a block that wholly satisfies the predicate. -/
theorem takeWhile_append_all (p : Nat → Bool) (l r : List Nat)
    (h : ∀ c ∈ l, p c = true) : (l ++ r).takeWhile p = l ++ r.takeWhile p := by
  induction l with
  | nil => simp
  | cons c t ih =>
    simp only [List.cons_append, List.takeWhile_cons, h c (by simp), if_true]
    rw [ih (fun x hx => h x (by simp [hx]))]

theorem dropWhile_append_all (p : Nat → Bool) (l r : List Nat)
    (h : ∀ c ∈ l, p c = true) : (l ++ r).dropWhile p = r.dropWhile p := by
  induction l with
  | nil => simp
  | cons c t ih =>
    simp only [List.cons_append, List.dropWhile_cons, h c (by simp), if_true]
    exact ih (fun x hx => h x (by simp [hx]))

/-- A list whose head (if any) fails the predicate is untouched by
`takeWhile`/`dropWhile`. -/
theorem takeWhile_nil_of_head (p : Nat → Bool) (r : List Nat)
    (h : ∀ c, r.head? = some c → p c = false) : r.takeWhile p = [] := by
  cases r with
  | nil => rfl
  | cons c t => simp [List.takeWhile_cons, h c rfl]

theorem dropWhile_id_of_head (p : Nat → Bool) (r : List Nat)
    (h : ∀ c, r.head? = some c → p c = false) : r.dropWhile p = r := by
  cases r with
  | nil => rfl
  | cons c t => simp [List.dropWhile_cons, h c rfl]

/-- Source `parseNat` consumes exactly a printed natural number when the
following character is not a digit. -/
theorem parseNat_natStr (n : Nat) (r : JsStr)
    (hr : ∀ c, r.head? = some c → isDigit c = false) :
    parseNat (natStr n ++ r) = some (n, r) := by
  have hdig : ∀ c ∈ natStr n, isDigit c = true := by
    intro c hc
    have := natStr_digits n c hc
    unfold isDigit
    simp only [Bool.and_eq_true, decide_eq_true_eq]
    omega
  unfold parseNat
  rw [takeWhile_append_all isDigit _ _ hdig, takeWhile_nil_of_head isDigit r hr,
    dropWhile_append_all isDigit _ _ hdig, dropWhile_id_of_head isDigit r hr]
  rw [List.append_nil, if_neg (natStr_ne_nil n), natStr_foldl n]

/-- Source `parseInt` reads back `intStr`. -/
theorem parseInt_intStr (n : Int) (r : JsStr)
    (hr : ∀ c, r.head? = some c → isDigit c = false) :
    parseInt (intStr n ++ r) = some (n, r) := by
  by_cases hneg : n < 0
  · have hshape : intStr n ++ r = 45 :: (natStr (-n).toNat ++ r) := by
      unfold intStr
      rw [if_pos hneg]
      simp
    rw [hshape]
    show (parseNat (natStr (-n).toNat ++ r)).map (fun p => (-(p.1 : Int), p.2)) =
      some (n, r)
    rw [parseNat_natStr _ r hr]
    have h2 : (((-n).toNat : Int)) = -n := Int.toNat_of_nonneg (by omega)
    simp [h2]
  · have h0 : intStr n ++ r = natStr n.toNat ++ r := by
      unfold intStr
      rw [if_neg hneg]
    rw [h0]
    cases hh : natStr n.toNat with
    | nil => exact absurd hh (natStr_ne_nil _)
    | cons c t =>
      have hdigc : 48 ≤ c ∧ c ≤ 57 := natStr_digits n.toNat c (by rw [hh]; simp)
      show parseInt (c :: t ++ r) = some (n, r)
      unfold parseInt
      split
      · rename_i heq
        have : c = 45 := by
          have := congrArg List.head? heq
          simpa using this
        omega
      · have hback : c :: t ++ r = natStr n.toNat ++ r := by rw [hh]
        rw [hback, parseNat_natStr _ r hr]
        have h2 : ((n.toNat : Int)) = n := Int.toNat_of_nonneg (by omega)
        simp [h2]

/-- Source `expectLit` strips exactly the expected literal. -/
theorem expectLit_append (lit r : JsStr) : expectLit lit (lit ++ r) = some r := by
  induction lit with
  | nil => rfl
  | cons a l ih =>
    show expectLit (a :: l) (a :: (l ++ r)) = some r
    unfold expectLit
    rw [if_pos rfl]
    exact ih

/-- Source `parseQuoted` reads a quote-free body up to the closing quote. -/
theorem parseQuoted_append (f r : JsStr) (hf : 34 ∉ f) :
    parseQuoted (f ++ 34 :: r) = some (f, r) := by
  induction f with
  | nil =>
    show parseQuoted (34 :: r) = some ([], r)
    unfold parseQuoted
    rw [if_pos rfl]
  | cons c t ih =>
    have hc : c ≠ 34 := fun h => hf (by simp [h])
    show parseQuoted (c :: (t ++ 34 :: r)) = some (c :: t, r)
    unfold parseQuoted
    rw [if_neg hc, ih (fun h => hf (by simp [h]))]

/-- Source `parseInt` before a comma (code unit 44, not a digit). -/
theorem parseInt_before_44 (n : Int) (r : JsStr) (hr : r.head? = some 44) :
    parseInt (intStr n ++ r) = some (n, r) :=
  parseInt_intStr n r (by intro c hc; rw [hr] at hc; cases hc; rfl)

/-- Source `parseNat` before a comma. -/
theorem parseNat_before_44 (n : Nat) (r : JsStr) (hr : r.head? = some 44) :
    parseNat (natStr n ++ r) = some (n, r) :=
  parseNat_natStr n r (by intro c hc; rw [hr] at hc; cases hc; rfl)

theorem expectLit_self (l : JsStr) : expectLit l l = some [] := by
  have := expectLit_append l []
  rwa [List.append_nil] at this

set_option maxHeartbeats 4000000 in
/-- The token JSON parser reads back exactly what the token JSON printer
wrote (`JSON.parse ∘ JSON.stringify` on the token record shape). -/
theorem parseTokenJson_jsonOfToken (t : Token) (h : TokenValid t) :
    parseTokenJson (jsonOfToken t) = some t := by
  obtain ⟨hpk, hpayee, hdev, hsig, -, -, -⟩ := h
  have hpk34 : 34 ∉ t.payer_pubkey := fun hm => ((hpk _ hm).2.2.1 rfl)
  have hpayee34 : 34 ∉ t.payee_device_id := fun hm => ((hpayee _ hm).2.2.1 rfl)
  have hdev34 : 34 ∉ t.payer_device_id := fun hm => ((hdev _ hm).2.2.1 rfl)
  have hsig34 : 34 ∉ t.signature := fun hm => ((hsig _ hm).2.2.1 rfl)
  have hB : strLit "\",\"amount\":" = 34 :: strLit ",\"amount\":" := by decide
  have hD : strLit "\",\"timestamp\":" = 34 :: strLit ",\"timestamp\":" := by decide
  have hG : strLit "\",\"signature\":\"" = 34 :: strLit ",\"signature\":\"" := by decide
  have hH : strLit "\"\x7d" = 34 :: strLit "\x7d" := by decide
  unfold parseTokenJson jsonOfToken
  rw [hB, hD, hG, hH]
  simp only [List.cons_append, List.append_assoc]
  rw [expectLit_append]
  first
  | rw [Option.bind_eq_bind, Option.some_bind]
  | rw [Option.some_bind]
  beta_reduce
  rw [parseQuoted_append _ _ hpk34]
  first
  | rw [Option.bind_eq_bind, Option.some_bind]
  | rw [Option.some_bind]
  beta_reduce
  rw [expectLit_append]
  first
  | rw [Option.bind_eq_bind, Option.some_bind]
  | rw [Option.some_bind]
  beta_reduce
  rw [parseInt_before_44 t.amount _ (by rfl)]
  first
  | rw [Option.bind_eq_bind, Option.some_bind]
  | rw [Option.some_bind]
  beta_reduce
  rw [expectLit_append]
  first
  | rw [Option.bind_eq_bind, Option.some_bind]
  | rw [Option.some_bind]
  beta_reduce
  rw [parseQuoted_append _ _ hpayee34]
  first
  | rw [Option.bind_eq_bind, Option.some_bind]
  | rw [Option.some_bind]
  beta_reduce
  rw [expectLit_append]
  first
  | rw [Option.bind_eq_bind, Option.some_bind]
  | rw [Option.some_bind]
  beta_reduce
  rw [parseInt_before_44 t.timestamp _ (by rfl)]
  first
  | rw [Option.bind_eq_bind, Option.some_bind]
  | rw [Option.some_bind]
  beta_reduce
  rw [expectLit_append]
  first
  | rw [Option.bind_eq_bind, Option.some_bind]
  | rw [Option.some_bind]
  beta_reduce
  rw [parseNat_before_44 t.counter _ (by rfl)]
  first
  | rw [Option.bind_eq_bind, Option.some_bind]
  | rw [Option.some_bind]
  beta_reduce
  rw [expectLit_append]
  first
  | rw [Option.bind_eq_bind, Option.some_bind]
  | rw [Option.some_bind]
  beta_reduce
  rw [parseQuoted_append _ _ hdev34]
  first
  | rw [Option.bind_eq_bind, Option.some_bind]
  | rw [Option.some_bind]
  beta_reduce
  rw [expectLit_append]
  first
  | rw [Option.bind_eq_bind, Option.some_bind]
  | rw [Option.some_bind]
  beta_reduce
  rw [parseQuoted_append _ _ hsig34]
  first
  | rw [Option.bind_eq_bind, Option.some_bind]
  | rw [Option.some_bind]
  beta_reduce
  rw [expectLit_self]
  first
  | rw [Option.bind_eq_bind, Option.some_bind]
  | rw [Option.some_bind]
  beta_reduce
  rfl

/-! ## ASCII-ness of the printed token JSON -/

theorem natStr_ascii (n : Nat) : ∀ c ∈ natStr n, c ≤ 127 := by
  intro c hc
  have := natStr_digits n c hc
  omega

theorem intStr_ascii (n : Int) : ∀ c ∈ intStr n, c ≤ 127 := by
  intro c hc
  unfold intStr at hc
  split at hc
  · simp only [List.mem_cons] at hc
    rcases hc with h | h
    · omega
    · exact natStr_ascii _ c h
  · exact natStr_ascii _ c hc

/-- Every code unit of the printed token JSON is ASCII, for a valid
token. -/
theorem jsonOfToken_ascii (t : Token) (h : TokenValid t) :
    ∀ c ∈ jsonOfToken t, c ≤ 127 := by
  obtain ⟨hpk, hpayee, hdev, hsig, -, -, -⟩ := h
  intro c hc
  unfold jsonOfToken at hc
  simp only [List.append_assoc, List.mem_append] at hc
  have l1 : ∀ c ∈ strLit "\x7b\"payer_pubkey\":\"", c ≤ 127 := by decide
  have l2 : ∀ c ∈ strLit "\",\"amount\":", c ≤ 127 := by decide
  have l3 : ∀ c ∈ strLit ",\"payee_device_id\":\"", c ≤ 127 := by decide
  have l4 : ∀ c ∈ strLit "\",\"timestamp\":", c ≤ 127 := by decide
  have l5 : ∀ c ∈ strLit ",\"counter\":", c ≤ 127 := by decide
  have l6 : ∀ c ∈ strLit ",\"payer_device_id\":\"", c ≤ 127 := by decide
  have l7 : ∀ c ∈ strLit "\",\"signature\":\"", c ≤ 127 := by decide
  have l8 : ∀ c ∈ strLit "\"\x7d", c ≤ 127 := by decide
  rcases hc with h | h | h | h | h | h | h | h | h | h | h | h | h | h | h
  · exact l1 c h
  · exact (hpk c h).2.1
  · exact l2 c h
  · exact intStr_ascii _ c h
  · exact l3 c h
  · exact (hpayee c h).2.1
  · exact l4 c h
  · exact intStr_ascii _ c h
  · exact l5 c h
  · exact natStr_ascii _ c h
  · exact l6 c h
  · exact (hdev c h).2.1
  · exact l7 c h
  · exact (hsig c h).2.1
  · exact l8 c h

/-- Claim C9: For every valid token record `t`, decoding its encoding
yields the identical record: `deserializeToken (serializeToken t) = t`
(with `serializeToken = base64 ∘ utf8 ∘ JSON.stringify` and
`deserializeToken = JSON.parse ∘ utf8⁻¹ ∘ base64⁻¹` as in
`offlineToken.js` / `textEncoding.js`). -/
theorem claim_C9_serialize_roundtrip (t : Token) (h : TokenValid t) :
    deserializeToken (serializeToken t) = some t := by
  have hjson := jsonOfToken_ascii t h
  unfold serializeToken deserializeToken
  rw [encodeUtf8_ascii _ hjson,
    decodeB64_encodeB64 _ (fun b hb => by have := hjson b hb; omega),
    decodeUtf8_ascii _ hjson]
  exact parseTokenJson_jsonOfToken t h


/-- Witness for C9: the round trip, evaluated at a concrete valid token. -/
theorem claim_C9_witness :
    TokenValid sampleToken ∧
      deserializeToken (serializeToken sampleToken) = some sampleToken :=
  ⟨by decide, claim_C9_serialize_roundtrip sampleToken (by decide)⟩

/-! ## C10: wallet balance invariants (`sqliteWallet.js`) -/

/-- Claim C10: Starting from any non-negative stored balance: `addMoney`
and `deductMoney` keep it non-negative; `deductMoney` throws the
insufficient-funds error whenever the requested amount exceeds the
balance; both throw on `amount <= 0`; and on every throw the stored
balance is unchanged. -/
theorem claim_C10_balance_never_negative (b amt : ℚ) (hb : 0 ≤ b) :
    (0 ≤ storedAfter b (addMoney amt b) ∧ 0 ≤ storedAfter b (deductMoney amt b)) ∧
    (b < amt → deductMoney amt b = .error errInsufficient) ∧
    (amt ≤ 0 → addMoney amt b = .error errNotPositive ∧
      deductMoney amt b = .error errNotPositive) ∧
    (∀ e, addMoney amt b = .error e → storedAfter b (addMoney amt b) = b) ∧
    (∀ e, deductMoney amt b = .error e → storedAfter b (deductMoney amt b) = b) := by
  refine ⟨⟨?_, ?_⟩, ?_, ?_, ?_, ?_⟩
  · unfold addMoney
    split_ifs with h1
    · exact hb
    · show (0 : ℚ) ≤ b + amt
      push_neg at h1
      linarith
  · unfold deductMoney
    split_ifs with h1 h2
    · exact hb
    · exact hb
    · show (0 : ℚ) ≤ b - amt
      push_neg at h1 h2
      linarith
  · intro hlt
    unfold deductMoney
    rw [if_neg (by linarith), if_pos hlt]
  · intro hle
    unfold addMoney deductMoney
    rw [if_pos hle, if_pos hle]
    exact ⟨rfl, rfl⟩
  · intro e he
    unfold addMoney at he ⊢
    split_ifs at he ⊢ <;> simp_all [storedAfter]
  · intro e he
    unfold deductMoney at he ⊢
    split_ifs at he ⊢ <;> simp_all [storedAfter]

/-- Witness for C10, at balance 5 and amount 7 (insufficient funds). -/
theorem claim_C10_witness :
    (0 : ℚ) ≤ 5 ∧
      ((0 ≤ storedAfter 5 (addMoney 7 5) ∧ 0 ≤ storedAfter 5 (deductMoney 7 5)) ∧
      ((5 : ℚ) < 7 → deductMoney 7 5 = .error errInsufficient) ∧
      ((7 : ℚ) ≤ 0 → addMoney 7 5 = .error errNotPositive ∧
        deductMoney 7 5 = .error errNotPositive) ∧
      (∀ e, addMoney 7 5 = .error e → storedAfter 5 (addMoney 7 5) = 5) ∧
      (∀ e, deductMoney 7 5 = .error e → storedAfter 5 (deductMoney 7 5) = 5)) :=
  ⟨by norm_num, claim_C10_balance_never_negative 5 7 (by norm_num)⟩

/-! ## C8: freshly issued tokens verify -/

/-- Base64 output is ASCII. -/
theorem encodeB64_ascii : ∀ l : List Nat, ∀ c ∈ encodeB64 l, c ≤ 127 := by
  have hchar : ∀ v, b64Char v ≤ 127 := by
    intro v
    by_cases h : v < 64
    · have : ∀ x : Fin 64, b64Char (x : Nat) ≤ 127 := by decide
      exact this ⟨v, h⟩
    · have hlen : b64Alphabet.length = 64 := by decide
      unfold b64Char
      rw [List.getD_eq_default]
      · decide
      · omega
  intro l
  induction l using encodeB64.induct with
  | case1 => simp [encodeB64]
  | case2 a =>
    intro c hc
    replace hc : c ∈ [b64Char (a >>> 2), b64Char ((a &&& 3) <<< 4), 61, 61] := hc
    simp only [List.mem_cons, List.not_mem_nil, or_false] at hc
    rcases hc with h | h | h | h <;> first | (subst h; exact hchar _) | omega
  | case3 a b =>
    intro c hc
    replace hc : c ∈ [b64Char (a >>> 2), b64Char (((a &&& 3) <<< 4) ||| (b >>> 4)),
      b64Char ((b &&& 15) <<< 2), 61] := hc
    simp only [List.mem_cons, List.not_mem_nil, or_false] at hc
    rcases hc with h | h | h | h <;> first | (subst h; exact hchar _) | omega
  | case4 a b d rest ih =>
    intro c hc
    replace hc : c ∈ b64Char (a >>> 2) :: b64Char (((a &&& 3) <<< 4) ||| (b >>> 4)) ::
      b64Char (((b &&& 15) <<< 2) ||| (d >>> 6)) :: b64Char (d &&& 63) ::
      encodeB64 rest := hc
    simp only [List.mem_cons] at hc
    rcases hc with h | h | h | h | h <;>
      first | (subst h; exact hchar _) | omega | exact ih c h

/-- Every code unit of the canonical signed-field JSON is ASCII when the
embedded public key and receiver id are ASCII. -/
theorem signedJson_ascii (pk : JsStr) (amount : Int) (payee : JsStr)
    (ts : Int) (ctr : Nat) (hpk : ∀ c ∈ pk, c ≤ 127) (hp : ∀ c ∈ payee, c ≤ 127) :
    ∀ c ∈ signedJson pk amount payee ts ctr, c ≤ 127 := by
  intro c hc
  unfold signedJson at hc
  simp only [List.append_assoc, List.mem_append] at hc
  have l1 : ∀ c ∈ strLit "\x7b\"payer_pubkey\":\"", c ≤ 127 := by decide
  have l2 : ∀ c ∈ strLit "\",\"amount\":", c ≤ 127 := by decide
  have l3 : ∀ c ∈ strLit ",\"payee_device_id\":\"", c ≤ 127 := by decide
  have l4 : ∀ c ∈ strLit "\",\"timestamp\":", c ≤ 127 := by decide
  have l5 : ∀ c ∈ strLit ",\"counter\":", c ≤ 127 := by decide
  have l6 : ∀ c ∈ strLit "\x7d", c ≤ 127 := by decide
  rcases hc with h | h | h | h | h | h | h | h | h | h | h
  · exact l1 c h
  · exact hpk c h
  · exact l2 c h
  · exact intStr_ascii _ c h
  · exact l3 c h
  · exact hp c h
  · exact l4 c h
  · exact intStr_ascii _ c h
  · exact l5 c h
  · exact natStr_ascii _ c h
  · exact l6 c h

/-- Claim C8: A token freshly produced by `generateToken` with a positive
amount and a valid (nonempty ASCII) receiver identifier is accepted by
`verifyToken` when verified at issue time. -/
theorem claim_C8_fresh_token_verifies (amount : Int) (payee deviceId : JsStr)
    (keySeed : Nat) (now : Int) (ctr : Nat) (t : Token) (c : Nat)
    (hamt : 0 < amount) (hp : payee ≠ []) (hpa : ∀ u ∈ payee, u ≤ 127)
    (hgen : generateToken amount payee deviceId keySeed now ctr = some (t, c)) :
    verifyToken (some t.toRx) now = true := by
  unfold generateToken at hgen
  rw [if_neg (by omega), if_neg hp] at hgen
  simp only [Option.some.injEq, Prod.mk.injEq] at hgen
  obtain ⟨ht, -⟩ := hgen
  subst ht
  unfold verifyToken Token.toRx
  simp only [Option.isNone_some, Bool.false_eq_true, if_false, Option.getD_some]
  rw [if_neg (by omega), if_neg (by unfold maxTokenAge; omega)]
  have hpkA : ∀ u ∈ encodeB64 (pkBytes keySeed), u ≤ 127 := encodeB64_ascii _
  have hsjA := signedJson_ascii (encodeB64 (pkBytes keySeed)) amount payee now
    (ctr + 1) hpkA hpa
  rw [encodeUtf8_ascii _ hsjA]
  unfold naclSignDetached
  rw [decodeB64_encodeB64 _ (by
    intro b hb
    rcases List.mem_append.1 hb with h | h
    · unfold pkBytes at h
      simp at h
      omega
    · have := hsjA b h
      omega)]
  rw [decodeB64_encodeB64 _ (by
    intro b hb
    unfold pkBytes at hb
    simp at hb
    omega)]
  simp [naclVerify]


/-- Witness for C8: issue and verify a concrete token at issue time. -/
theorem claim_C8_witness :
    (0 : Int) < 100 ∧ strLit "m" ≠ [] ∧
      generateToken 100 (strLit "m") (strLit "d") 7 12345 0 =
        some (genSample.1, genSample.2) ∧
      verifyToken (some genSample.1.toRx) 12345 = true :=
  ⟨by decide, by decide, by decide,
    claim_C8_fresh_token_verifies 100 (strLit "m") (strLit "d") 7 12345 0
      genSample.1 genSample.2 (by decide) (by decide) (by decide) (by decide)⟩

/-! ## C1: a replayed token is verified and credited again

Neither `verifyToken` nor `processReceivedToken` /
`applyReceivedPaymentToken` consults any seen-set: presenting the very
same valid token a second time passes verification again and credits the
receiver's balance again. -/

/-- Claim C1 evidence: Evaluating the receive path at the failing input: the same
valid token applied twice.  Both applications report success, and the
stored balance is credited twice (1000 → 1100 → 1200 for a 100-unit
token) — there is no replay or duplicate-counter rejection anywhere in
the flow. -/
theorem claim_C1_replay_credited_twice :
    (applyReceivedPaymentToken (some genSample.1.toRx) 12345 1000).1.success = true ∧
    (applyReceivedPaymentToken (some genSample.1.toRx) 12345 1000).2 = 1100 ∧
    (applyReceivedPaymentToken (some genSample.1.toRx) 12345
      (applyReceivedPaymentToken (some genSample.1.toRx) 12345 1000).2).1.success = true ∧
    (applyReceivedPaymentToken (some genSample.1.toRx) 12345
      (applyReceivedPaymentToken (some genSample.1.toRx) 12345 1000).2).2 = 1200 := by
  have hv : processReceivedToken (some genSample.1.toRx) 12345 =
      { success := true, amount := 100 } := by decide
  have h1 : ∀ b : ℚ, applyReceivedPaymentToken (some genSample.1.toRx) 12345 b =
      ({ success := true, amount := 100, newBalance := b + 100 }, b + 100) := by
    intro b
    unfold applyReceivedPaymentToken
    rw [hv]
    norm_num [addMoney]
  simp only [h1]
  norm_num

/-! ## C2: the sender debits after transmission, without any ack -/



/-- Claim C2 evidence: Evaluating `processOfflinePayment` at the failing input: with
all steps up to BLE transmission succeeding and no ack arriving, the
sender still reports the payment successful and debits its balance
(1000 → 700 for a 300-unit payment).  The flow contains no
acknowledgment wait at all (`envNoAck.ackArrives` is never read). -/
theorem claim_C2_debit_without_ack :
    envNoAck.ackArrives = false ∧
    (processOfflinePayment envNoAck 300 (strLit "m") (strLit "d") 7 12345 0
      1000).success = true ∧
    (processOfflinePayment envNoAck 300 (strLit "m") (strLit "d") 7 12345 0
      1000).balance = 700 := by
  have hgen : generateToken 300 (strLit "m") (strLit "d") 7 12345 0 =
      some (sentToken.1, sentToken.2) := by decide
  refine ⟨rfl, ?_⟩
  unfold processOfflinePayment
  rw [hgen]
  norm_num [envNoAck, deductMoney]

/-! ## C4: the generated token has no nonce field -/

/-- Claim C4 evidence: Evaluating `generateToken` at the failing input: the
serialized JSON of a freshly generated token contains no `"nonce"` key
(while it does contain the other required keys) — the code never
generates a nonce, contradicting the frozen token format. -/
theorem claim_C4_no_nonce_field :
    containsSub (strLit "\"nonce\"") (jsonOfToken genSample.1) = false ∧
    containsSub (strLit "\"payer_pubkey\"") (jsonOfToken genSample.1) = true ∧
    containsSub (strLit "\"amount\"") (jsonOfToken genSample.1) = true ∧
    containsSub (strLit "\"payee_device_id\"") (jsonOfToken genSample.1) = true ∧
    containsSub (strLit "\"timestamp\"") (jsonOfToken genSample.1) = true ∧
    containsSub (strLit "\"counter\"") (jsonOfToken genSample.1) = true ∧
    containsSub (strLit "\"signature\"") (jsonOfToken genSample.1) = true := by
  decide

/-! ## C5: the counter is monotonic in-session but resets on restart -/




/-- Claim C5 evidence: Within one session the embedded counters strictly increase
(1 then 2), but after a restart the in-memory counter is 0 again and the
next token reuses counter value 1 — the counter is not persisted and
monotonicity does not survive restarts. -/
theorem claim_C5_counter_not_persisted :
    sessionOneFirst.1.counter = 1 ∧ sessionOneSecond.1.counter = 2 ∧
    sessionTwoFirst.1.counter = 1 ∧
    sessionTwoFirst.1.counter = sessionOneFirst.1.counter := by
  decide

/-! ## C3: what `verifyToken` actually checks -/


/-- Claim C3 counterexample: The claim requires the symmetric freshness
check `abs(now - token.timestamp) ≤ skew` to reject this token as
`Expired`; the code's one-sided check `now - timestamp > MAX_TOKEN_AGE`
accepts it: a token dated 10^13 ms in the future verifies successfully
even though `|now - timestamp|` exceeds the 24-hour window by far. -/
theorem claim_C3_counterexample :
    verifyToken (some futureToken.1.toRx) 0 = true ∧
      maxTokenAge.natAbs < ((0 : Int) - futureToken.1.timestamp).natAbs := by
  constructor
  · decide
  · decide

/-- Claim C3 amended: `verifyToken(token)` returns a plain boolean (the
same `false` for every failure, with no distinct reason values and no
seen-set/replay check), and it returns `true` iff: the input is an
object, the six required fields are present, the amount is positive, the
one-sided age bound `now - timestamp ≤ 24h` holds (timestamps in the
future always pass), and the Ed25519 signature verifies over the
re-serialized five signed fields against the embedded payer key. -/
theorem claim_C3_amended (token : Option RxToken) (now : Int) :
    verifyToken token now = true ↔
      ∃ t, token = some t ∧
        t.payer_pubkey.isSome = true ∧ t.amount.isSome = true ∧
        t.payee_device_id.isSome = true ∧ t.timestamp.isSome = true ∧
        t.counter.isSome = true ∧ t.signature.isSome = true ∧
        0 < t.amount.getD 0 ∧ now - t.timestamp.getD 0 ≤ maxTokenAge ∧
        naclVerify
          (encodeUtf8 (signedJson (t.payer_pubkey.getD []) (t.amount.getD 0)
            (t.payee_device_id.getD []) (t.timestamp.getD 0) (t.counter.getD 0)))
          (decodeB64 (t.signature.getD []))
          (decodeB64 (t.payer_pubkey.getD [])) = true := by
  cases token with
  | none => simp [verifyToken]
  | some t =>
    have hs : ∀ {α : Type} (o : Option α), ¬(o.isNone = true) → o.isSome = true := by
      intro α o h
      cases o
      · simp at h
      · rfl
    unfold verifyToken
    dsimp only
    split_ifs with h1 h2 h3 h4 h5 h6 h7 h8
    case pos =>
      refine iff_of_false (by simp) ?_
      rintro ⟨t', ht', hf, -⟩
      injection ht' with h
      subst h
      simp_all [Option.isNone_iff_eq_none]
    case pos =>
      refine iff_of_false (by simp) ?_
      rintro ⟨t', ht', -, hf, -⟩
      injection ht' with h
      subst h
      simp_all [Option.isNone_iff_eq_none]
    case pos =>
      refine iff_of_false (by simp) ?_
      rintro ⟨t', ht', -, -, hf, -⟩
      injection ht' with h
      subst h
      simp_all [Option.isNone_iff_eq_none]
    case pos =>
      refine iff_of_false (by simp) ?_
      rintro ⟨t', ht', -, -, -, hf, -⟩
      injection ht' with h
      subst h
      simp_all [Option.isNone_iff_eq_none]
    case pos =>
      refine iff_of_false (by simp) ?_
      rintro ⟨t', ht', -, -, -, -, hf, -⟩
      injection ht' with h
      subst h
      simp_all [Option.isNone_iff_eq_none]
    case pos =>
      refine iff_of_false (by simp) ?_
      rintro ⟨t', ht', -, -, -, -, -, hf, -⟩
      injection ht' with h
      subst h
      simp_all [Option.isNone_iff_eq_none]
    case pos =>
      refine iff_of_false (by simp) ?_
      rintro ⟨t', ht', -, -, -, -, -, -, hpos, -⟩
      injection ht' with h
      subst h
      omega
    case pos =>
      refine iff_of_false (by simp) ?_
      rintro ⟨t', ht', -, -, -, -, -, -, -, hage, -⟩
      injection ht' with h
      subst h
      omega
    case neg =>
      constructor
      · intro hv
        exact ⟨t, rfl, hs _ h1, hs _ h2, hs _ h3, hs _ h4, hs _ h5, hs _ h6,
          by omega, by omega, hv⟩
      · rintro ⟨t', ht', -, -, -, -, -, -, -, -, hv⟩
        injection ht' with h
        subst h
        exact hv

/-! ## C6: what `verifyReceiveQR` actually checks -/


/-- Claim C6 counterexample: The claim bounds a grant's age by 15–20
seconds; the code's `QR_EXPIRY_TIME_MS` is 5 minutes: a valid grant aged
60 seconds — far beyond any 20-second maximum — is accepted. -/
theorem claim_C6_counterexample :
    (verifyReceiveQR (some lateGrant.toRx) 61000).success = true ∧
      (20 : Int) * 1000 < 61000 - lateGrant.tx.timestamp := by
  constructor
  · decide
  · decide

set_option maxHeartbeats 4000000 in
/-- Claim C6 amended: For a version-2 payload, `verifyReceiveQR` accepts
iff: `conn` and `tx` bundles are present, all their fields and the
signature are present and truthy, the bearer-service UUID equals the
expected constant, the intent is `receive`, the age satisfies
`now - tx.timestamp ≤ 5 minutes` (`QR_EXPIRY_TIME_MS = 300000` ms, not
15–20 s), and the Ed25519 signature verifies against the embedded
ephemeral key; each failing check yields its own distinct message
string.  (Version `1.0` payloads take an analogous flat-field legacy
path; any other version is rejected as unsupported.) -/
theorem claim_C6_amended (g : RxGrant) (now : Int)
    (hv : g.version = some (strLit "2.0")) :
    (verifyReceiveQR (some g) now).success = true ↔
      (g.conn.isSome = true ∧ g.tx.isSome = true ∧ truthyS g.signature = true ∧
       truthyS ((g.conn.map (·.device_id)).join) = true ∧
       truthyS ((g.conn.map (·.device_name)).join) = true ∧
       truthyS ((g.conn.map (·.ble_service_uuid)).join) = true ∧
       truthyS ((g.conn.map (·.ephemeral_public_key)).join) = true ∧
       ((g.conn.map (·.ble_service_uuid)).join) = some tokpayServiceUUID ∧
       truthyS ((g.tx.map (·.intent)).join) = true ∧
       truthyI ((g.tx.map (·.timestamp)).join) = true ∧
       truthyS ((g.tx.map (·.nonce)).join) = true ∧
       ((g.tx.map (·.intent)).join) = some (strLit "receive") ∧
       now - (((g.tx.map (·.timestamp)).join).getD 0) ≤ qrExpiryTimeMs ∧
       verifyQRSignature (rxGrantV2SignedJson g) g.signature
         ((g.conn.map (·.ephemeral_public_key)).join) = true) := by
  have hdisp : verifyReceiveQR (some g) now = verifyReceiveQRPayload g now := rfl
  rw [hdisp]
  unfold verifyReceiveQRPayload
  rw [hv, if_neg (by decide), if_neg (by simp)]
  by_cases h1 : g.conn.isNone = true
  · rw [if_pos h1]
    refine iff_of_false (by simp) ?_
    rintro ⟨hc, -⟩
    cases hx : g.conn
    · rw [hx] at hc; simp at hc
    · rw [hx] at h1; simp at h1
  rw [if_neg h1]
  by_cases h2 : g.tx.isNone = true
  · rw [if_pos h2]
    refine iff_of_false (by simp) ?_
    rintro ⟨-, hc, -⟩
    cases hx : g.tx
    · rw [hx] at hc; simp at hc
    · rw [hx] at h2; simp at h2
  rw [if_neg h2]
  by_cases h3 : ¬(truthyS g.signature = true)
  · rw [if_pos h3]
    refine iff_of_false (by simp) ?_
    rintro ⟨-, -, hc, -⟩
    exact h3 hc
  rw [if_neg h3]
  by_cases h4 : ¬(truthyS ((g.conn.map (·.device_id)).join) = true)
  · rw [if_pos h4]
    refine iff_of_false (by simp) ?_
    rintro ⟨-, -, -, hc, -⟩
    exact h4 hc
  rw [if_neg h4]
  by_cases h5 : ¬(truthyS ((g.conn.map (·.device_name)).join) = true)
  · rw [if_pos h5]
    refine iff_of_false (by simp) ?_
    rintro ⟨-, -, -, -, hc, -⟩
    exact h5 hc
  rw [if_neg h5]
  by_cases h6 : ¬(truthyS ((g.conn.map (·.ble_service_uuid)).join) = true)
  · rw [if_pos h6]
    refine iff_of_false (by simp) ?_
    rintro ⟨-, -, -, -, -, hc, -⟩
    exact h6 hc
  rw [if_neg h6]
  by_cases h7 : ¬(truthyS ((g.conn.map (·.ephemeral_public_key)).join) = true)
  · rw [if_pos h7]
    refine iff_of_false (by simp) ?_
    rintro ⟨-, -, -, -, -, -, hc, -⟩
    exact h7 hc
  rw [if_neg h7]
  by_cases h8 : ((g.conn.map (·.ble_service_uuid)).join) ≠ some tokpayServiceUUID
  · rw [if_pos h8]
    refine iff_of_false (by simp) ?_
    rintro ⟨-, -, -, -, -, -, -, hc, -⟩
    exact h8 hc
  rw [if_neg h8]
  by_cases h9 : ¬(truthyS ((g.tx.map (·.intent)).join) = true)
  · rw [if_pos h9]
    refine iff_of_false (by simp) ?_
    rintro ⟨-, -, -, -, -, -, -, -, hc, -⟩
    exact h9 hc
  rw [if_neg h9]
  by_cases h10 : ¬(truthyI ((g.tx.map (·.timestamp)).join) = true)
  · rw [if_pos h10]
    refine iff_of_false (by simp) ?_
    rintro ⟨-, -, -, -, -, -, -, -, -, hc, -⟩
    exact h10 hc
  rw [if_neg h10]
  by_cases h11 : ¬(truthyS ((g.tx.map (·.nonce)).join) = true)
  · rw [if_pos h11]
    refine iff_of_false (by simp) ?_
    rintro ⟨-, -, -, -, -, -, -, -, -, -, hc, -⟩
    exact h11 hc
  rw [if_neg h11]
  by_cases h12 : ((g.tx.map (·.intent)).join) ≠ some (strLit "receive")
  · rw [if_pos h12]
    refine iff_of_false (by simp) ?_
    rintro ⟨-, -, -, -, -, -, -, -, -, -, -, hc, -⟩
    exact h12 hc
  rw [if_neg h12]
  by_cases h13 : now - (((g.tx.map (·.timestamp)).join).getD 0) > qrExpiryTimeMs
  · rw [if_pos h13]
    refine iff_of_false (by simp) ?_
    rintro ⟨-, -, -, -, -, -, -, -, -, -, -, -, hc, -⟩
    omega
  rw [if_neg h13]
  by_cases h14 : ¬(verifyQRSignature (rxGrantV2SignedJson g) g.signature
      ((g.conn.map (·.ephemeral_public_key)).join) = true)
  · rw [if_pos h14]
    refine iff_of_false (by simp) ?_
    rintro ⟨-, -, -, -, -, -, -, -, -, -, -, -, -, hc⟩
    exact h14 hc
  rw [if_neg h14]
  refine iff_of_true rfl ?_
  refine ⟨?_, ?_, not_not.1 h3, not_not.1 h4, not_not.1 h5, not_not.1 h6,
    not_not.1 h7, not_not.1 h8, not_not.1 h9, not_not.1 h10, not_not.1 h11,
    not_not.1 h12, by omega, not_not.1 h14⟩
  · cases hx : g.conn
    · rw [hx] at h1; simp at h1
    · rfl
  · cases hx : g.tx
    · rw [hx] at h2; simp at h2
    · rfl

/-- Witness for the amended C6, at a concrete valid grant aged 60 s. -/
theorem claim_C6_witness :
    lateGrant.toRx.version = some (strLit "2.0") ∧
      ((verifyReceiveQR (some lateGrant.toRx) 61000).success = true ↔
        (lateGrant.toRx.conn.isSome = true ∧ lateGrant.toRx.tx.isSome = true ∧
         truthyS lateGrant.toRx.signature = true ∧
         truthyS ((lateGrant.toRx.conn.map (·.device_id)).join) = true ∧
         truthyS ((lateGrant.toRx.conn.map (·.device_name)).join) = true ∧
         truthyS ((lateGrant.toRx.conn.map (·.ble_service_uuid)).join) = true ∧
         truthyS ((lateGrant.toRx.conn.map (·.ephemeral_public_key)).join) = true ∧
         ((lateGrant.toRx.conn.map (·.ble_service_uuid)).join) = some tokpayServiceUUID ∧
         truthyS ((lateGrant.toRx.tx.map (·.intent)).join) = true ∧
         truthyI ((lateGrant.toRx.tx.map (·.timestamp)).join) = true ∧
         truthyS ((lateGrant.toRx.tx.map (·.nonce)).join) = true ∧
         ((lateGrant.toRx.tx.map (·.intent)).join) = some (strLit "receive") ∧
         (61000 : Int) - (((lateGrant.toRx.tx.map (·.timestamp)).join).getD 0) ≤
           qrExpiryTimeMs ∧
         verifyQRSignature (rxGrantV2SignedJson lateGrant.toRx) lateGrant.toRx.signature
           ((lateGrant.toRx.conn.map (·.ephemeral_public_key)).join) = true)) :=
  ⟨by decide, claim_C6_amended lateGrant.toRx 61000 (by decide)⟩

/-! ## C7: fragment reassembly (`bleTransport.js`) -/

theorem splitOnSep_no_sep (sep : Nat) (x : JsStr) (h : sep ∉ x) :
    splitOnSep sep x = [x] := by
  induction x with
  | nil => rfl
  | cons c t ih =>
    have hc : c ≠ sep := fun hh => h (by simp [hh])
    unfold splitOnSep
    rw [if_neg hc, ih (fun hh => h (by simp [hh]))]

theorem splitOnSep_append_sep (sep : Nat) (x y : JsStr) (h : sep ∉ x) :
    splitOnSep sep (x ++ sep :: y) = x :: splitOnSep sep y := by
  induction x with
  | nil =>
    show splitOnSep sep (sep :: y) = [] :: splitOnSep sep y
    simp only [splitOnSep]
    simp
  | cons c t ih =>
    have hc : c ≠ sep := fun hh => h (by simp [hh])
    show splitOnSep sep (c :: (t ++ sep :: y)) = (c :: t) :: splitOnSep sep y
    simp only [splitOnSep]
    rw [if_neg hc, ih (fun hh => h (by simp [hh]))]

theorem jsNumber_natStr (n : Nat) : jsNumber (natStr n) = some n := by
  unfold jsNumber
  rw [if_neg (by simp [List.isEmpty_iff, natStr_ne_nil]),
    if_pos (by
      rw [List.all_eq_true]
      intro c hc
      have := natStr_digits n c hc
      unfold isDigit
      simp only [Bool.and_eq_true, decide_eq_true_eq]
      omega),
    natStr_foldl]

/-- One receiver notification carrying a well-formed chunk message. -/
theorem processChunk_msg (st : RecvState) (i total : Nat) (f : JsStr) (hf : 58 ∉ f) :
    processChunk st (chunkMsg i total f) =
      (if (insertChunk st.chunks i f).length = total then
        ({ chunks := [], expected := 0 },
          some (reassemble (insertChunk st.chunks i f) total))
      else ({ chunks := insertChunk st.chunks i f, expected := total }, none)) := by
  have hshape : chunkMsg i total f = (natStr i ++ 47 :: natStr total) ++ 58 :: f := by
    unfold chunkMsg
    simp [List.append_assoc]
  have hnos : 58 ∉ natStr i ++ 47 :: natStr total := by
    intro hm
    rcases List.mem_append.1 hm with h | h
    · have := natStr_digits i _ h
      omega
    · rcases List.mem_cons.1 h with h | h
      · omega
      · have := natStr_digits total _ h
        omega
  unfold processChunk
  rw [hshape, splitOnSep_append_sep 58 _ _ hnos, splitOnSep_no_sep 58 f hf]
  dsimp only
  rw [splitOnSep_append_sep 47 (natStr i) (natStr total)
      (by intro hm; have := natStr_digits i _ hm; omega),
    splitOnSep_no_sep 47 (natStr total)
      (by intro hm; have := natStr_digits total _ hm; omega)]
  dsimp only
  rw [jsNumber_natStr, jsNumber_natStr]

/-- Inserting a fresh key appends the pair. -/
theorem insertChunk_notmem (chs : List (Nat × JsStr)) (i : Nat) (d : JsStr)
    (h : i ∉ chs.map Prod.fst) : insertChunk chs i d = chs ++ [(i, d)] := by
  induction chs with
  | nil => rfl
  | cons q t ih =>
    obtain ⟨j, e⟩ := q
    simp only [List.map_cons, List.mem_cons] at h
    push_neg at h
    show insertChunk ((j, e) :: t) i d = (j, e) :: (t ++ [(i, d)])
    unfold insertChunk
    rw [if_neg h.1, ih h.2]

/-- Looking up a key in a fragment table built over an index list. -/
theorem lookup_map_pair (frags : List JsStr) (l : List Nat) (i : Nat) :
    (l.map (fun j => (j, frags.getD j []))).lookup i =
      if i ∈ l then some (frags.getD i []) else none := by
  induction l with
  | nil => rfl
  | cons j t ih =>
    by_cases hij : i = j
    · subst hij
      simp [List.lookup]
    · have hbeq : (i == j) = false := by simp [hij]
      simp only [List.map_cons, List.lookup, hbeq, ih, List.mem_cons]
      simp [hij]

theorem foldl_append_join (g : Nat → JsStr) (l : List Nat) (acc : JsStr) :
    l.foldl (fun a i => a ++ g i) acc = acc ++ (l.map g).flatten := by
  induction l generalizing acc with
  | nil => simp
  | cons i t ih => simp [ih, List.append_assoc]

theorem range_map_getD (frags : List JsStr) :
    (List.range frags.length).map (fun i => frags.getD i []) = frags := by
  apply List.ext_getElem
  · simp
  · intro i h1 h2
    simp only [List.getElem_map, List.getElem_range]
    rw [List.getD_eq_getElem _ _ h2]

/-- When every index below `frags.length` has been stored, the
reconstruction loop yields the concatenation of all fragments. -/
theorem reassemble_complete (frags : List JsStr) (done : List Nat)
    (hcov : ∀ i, i < frags.length → i ∈ done) :
    reassemble (done.map (fun j => (j, frags.getD j []))) frags.length =
      frags.flatten := by
  unfold reassemble
  rw [foldl_append_join]
  rw [List.nil_append]
  have : (List.range frags.length).map
      (fun i => (((done.map (fun j => (j, frags.getD j []))).lookup i).getD
        (strLit "undefined"))) =
      (List.range frags.length).map (fun i => frags.getD i []) := by
    apply List.map_congr_left
    intro i hi
    rw [List.mem_range] at hi
    rw [lookup_map_pair, if_pos (hcov i hi)]
    rfl
  rw [this, range_map_getD]

/-- Main receiver invariant: starting from a table holding exactly the
fragments of the distinct indices `done`, delivering the chunk messages
of the distinct indices `is` (all indices below `frags.length`) emits
exactly the full concatenation — and only once the key count reaches the
fragment count. -/
theorem runReceiver_invariant (frags : List JsStr) (hcf : ∀ f ∈ frags, 58 ∉ f) :
    ∀ (is done : List Nat) (E : Nat),
      (done ++ is).Nodup → (∀ i ∈ done ++ is, i < frags.length) →
      (runReceiver { chunks := done.map (fun j => (j, frags.getD j [])), expected := E }
        (is.map (fun i => chunkMsg i frags.length (frags.getD i [])))).2 =
      (if done.length + is.length = frags.length ∧ is ≠ [] then [frags.flatten] else []) := by
  intro is
  induction is with
  | nil =>
    intro done E hnd hlt
    simp [runReceiver]
  | cons i is2 ih =>
    intro done E hnd hlt
    have hiN : i < frags.length := hlt i (by simp)
    have hfmem : frags.getD i [] ∈ frags := by
      rw [List.getD_eq_getElem _ _ hiN]
      exact List.getElem_mem hiN
    have hfcf : 58 ∉ frags.getD i [] := hcf _ hfmem
    have hnd2 : ((done ++ [i]) ++ is2).Nodup := by
      rw [← List.append_cons]
      exact hnd
    have hidone : i ∉ done := by
      intro hmem
      rw [List.nodup_append] at hnd
      exact hnd.2.2 hmem (by simp)
    have hsubperm : List.Subperm (done ++ i :: is2) (List.range frags.length) := by
      apply List.subperm_of_subset hnd
      intro a ha
      rw [List.mem_range]
      exact hlt a ha
    have hlen : done.length + (1 + is2.length) ≤ frags.length := by
      have := hsubperm.length_le
      simp at this
      omega
    simp only [List.map_cons]
    unfold runReceiver
    dsimp only
    rw [processChunk_msg _ _ _ _ hfcf]
    dsimp only
    rw [insertChunk_notmem _ _ _ (by
      rw [show (done.map (fun j => (j, frags.getD j []))).map Prod.fst = done by
        simp [Function.comp_def]]
      exact hidone)]
    rw [show done.map (fun j => (j, frags.getD j [])) ++ [(i, frags.getD i [])] =
      (done ++ [i]).map (fun j => (j, frags.getD j [])) by simp]
    rw [show ((done ++ [i]).map (fun j => (j, frags.getD j []))).length =
      done.length + 1 by simp]
    by_cases hN : done.length + 1 = frags.length
    · rw [if_pos hN]
      have hlen2 : is2.length = 0 := by omega
      have his2 : is2 = [] := List.length_eq_zero.1 hlen2
      subst his2
      have hperm : (done ++ [i]).Perm (List.range frags.length) :=
        hsubperm.perm_of_length_le (by simp [← hN])
      have hcov : ∀ a, a < frags.length → a ∈ done ++ [i] := fun a ha =>
        hperm.mem_iff.2 (by rw [List.mem_range]; exact ha)
      dsimp only
      rw [reassemble_complete frags (done ++ [i]) hcov]
      rw [if_pos ⟨by simpa using hN, by simp⟩]
      simp [runReceiver]
    · rw [if_neg hN]
      dsimp only
      rw [ih (done ++ [i]) frags.length hnd2 (by
        intro a ha
        apply hlt
        rw [List.append_cons]
        exact ha)]
      rcases is2 with _ | ⟨a, b⟩
      · rw [if_neg (by simp), if_neg (by simpa using hN)]
        rfl
      · have hiff : ((done ++ [i]).length + (a :: b).length = frags.length ∧
            (a :: b) ≠ []) ↔
            (done.length + (i :: a :: b).length = frags.length ∧
            (i :: a :: b) ≠ []) := by
          simp
          omega
        rw [if_congr hiff rfl rfl]
        rfl

/-- Rechunking concatenates back to the original payload. -/
theorem chunkFragsAux_flatten (L : Nat) (hL : 1 ≤ L) :
    ∀ fuel s, s.length ≤ fuel → (chunkFragsAux L fuel s).flatten = s := by
  intro fuel
  induction fuel with
  | zero =>
    intro s hs
    have : s = [] := by
      cases s
      · rfl
      · simp at hs
    subst this
    rfl
  | succ f ih =>
    intro s hs
    unfold chunkFragsAux
    by_cases hne : s.isEmpty = true
    · rw [if_pos hne]
      rw [List.isEmpty_iff] at hne
      subst hne
      rfl
    · rw [if_neg hne]
      rw [List.isEmpty_iff] at hne
      have hlen : (s.drop L).length ≤ f := by
        rw [List.length_drop]
        have : 1 ≤ s.length := by
          cases s
          · exact absurd rfl hne
          · simp
        omega
      simp only [List.flatten_cons, ih (s.drop L) hlen, List.take_append_drop]

theorem chunkFrags_flatten (p : JsStr) (L : Nat) (hL : 1 ≤ L) :
    (chunkFrags p L).flatten = p :=
  chunkFragsAux_flatten L hL p.length p le_rfl

/-- Every fragment is a segment of the payload. -/
theorem chunkFragsAux_subset (L : Nat) :
    ∀ fuel s f, f ∈ chunkFragsAux L fuel s → ∀ c ∈ f, c ∈ s := by
  intro fuel
  induction fuel with
  | zero =>
    intro s f hf
    simp [chunkFragsAux] at hf
  | succ fl ih =>
    intro s f hf c hc
    unfold chunkFragsAux at hf
    split_ifs at hf with hne
    · simp at hf
    · rcases List.mem_cons.1 hf with h | h
      · subst h
        exact List.take_subset L s hc
      · exact List.drop_subset L s (ih (s.drop L) f h c hc)

/-- A nonempty payload splits into at least one fragment. -/
theorem chunkFrags_length_pos (p : JsStr) (L : Nat) (hp : p ≠ []) :
    1 ≤ (chunkFrags p L).length := by
  unfold chunkFrags
  cases hs : p with
  | nil => exact absurd hs hp
  | cons c t =>
    simp only [List.length_cons]
    unfold chunkFragsAux
    rw [if_neg (by simp)]
    simp

/-- Claim C7: For every nonempty colon-free payload string split by the
sender into indexed fragments (`sendToken`'s `i/total:` chunk format, at
any fragment length `L ≥ 1`): (1) for every delivery order of all the
fragments, the receiver reassembles exactly the original payload, once,
when the fragment of the last missing index arrives; (2) if the fragment
of any index `k` is missing, no reassembled payload is ever delivered to
the callback; and (3) the payloads `sendToken` actually splits —
`serializeToken` outputs, which are base64 — never contain the `:`
delimiter, so they satisfy the colon-freeness premise. -/
theorem claim_C7_fragment_reassembly (p : JsStr) (L : Nat)
    (hp : p ≠ []) (hL : 1 ≤ L) (hcolon : 58 ∉ p) :
    (∀ is : List Nat, is.Perm (List.range (chunkFrags p L).length) →
      (runReceiver {} (is.map (fun i =>
        chunkMsg i (chunkFrags p L).length ((chunkFrags p L).getD i [])))).2 = [p]) ∧
    (∀ k, k < (chunkFrags p L).length → ∀ is : List Nat,
      is.Perm ((List.range (chunkFrags p L).length).erase k) →
      (runReceiver {} (is.map (fun i =>
        chunkMsg i (chunkFrags p L).length ((chunkFrags p L).getD i [])))).2 = []) ∧
    (∀ t : Token, 58 ∉ serializeToken t) := by
  have hcf : ∀ f ∈ chunkFrags p L, 58 ∉ f := by
    intro f hf hc
    exact hcolon (chunkFragsAux_subset L p.length p f hf 58 hc)
  have hN1 : 1 ≤ (chunkFrags p L).length := chunkFrags_length_pos p L hp
  refine ⟨?_, ?_, ?_⟩
  · intro is hperm
    have hnd : (([] : List Nat) ++ is).Nodup := by
      simpa using hperm.nodup_iff.2 (List.nodup_range _)
    have hlt : ∀ i ∈ ([] : List Nat) ++ is, i < (chunkFrags p L).length := by
      intro i hi
      simp at hi
      have := hperm.mem_iff.1 hi
      rwa [List.mem_range] at this
    have h := runReceiver_invariant (chunkFrags p L) hcf is [] 0 hnd hlt
    have hlen : is.length = (chunkFrags p L).length := by
      rw [hperm.length_eq, List.length_range]
    have hne : is ≠ [] := by
      intro hisnil
      rw [hisnil] at hlen
      simp at hlen
      omega
    rw [if_pos ⟨by simpa using hlen, hne⟩, chunkFrags_flatten p L hL] at h
    exact h
  · intro k hk is hperm
    have herasend : ((List.range (chunkFrags p L).length).erase k).Nodup :=
      (List.nodup_range _).erase k
    have hnd : (([] : List Nat) ++ is).Nodup := by
      simpa using hperm.nodup_iff.2 herasend
    have hlt : ∀ i ∈ ([] : List Nat) ++ is, i < (chunkFrags p L).length := by
      intro i hi
      simp at hi
      have h2 := hperm.mem_iff.1 hi
      have := List.mem_of_mem_erase h2
      rwa [List.mem_range] at this
    have h := runReceiver_invariant (chunkFrags p L) hcf is [] 0 hnd hlt
    have hlen : is.length = (chunkFrags p L).length - 1 := by
      rw [hperm.length_eq,
        List.length_erase_of_mem (by rw [List.mem_range]; exact hk),
        List.length_range]
    rw [if_neg (by
      rintro ⟨hc1, -⟩
      simp [hlen] at hc1
      omega)] at h
    exact h
  · intro t
    unfold serializeToken
    exact encodeB64_no_colon _

/-- Witness for C7 at the payload `"abcdefg"`, fragment length 3
(fragments `abc` / `def` / `g`): shuffled delivery `[2, 0, 1]`
reassembles the payload; delivery `[2, 0]` missing index 1 delivers
nothing. -/
theorem claim_C7_witness :
    (strLit "abcdefg" ≠ [] ∧ 1 ≤ 3 ∧ 58 ∉ strLit "abcdefg") ∧
    (runReceiver {} ([2, 0, 1].map (fun i =>
      chunkMsg i (chunkFrags (strLit "abcdefg") 3).length
        ((chunkFrags (strLit "abcdefg") 3).getD i [])))).2 = [strLit "abcdefg"] ∧
    (runReceiver {} ([2, 0].map (fun i =>
      chunkMsg i (chunkFrags (strLit "abcdefg") 3).length
        ((chunkFrags (strLit "abcdefg") 3).getD i [])))).2 = [] :=
  ⟨⟨by decide, by decide, by decide⟩,
   (claim_C7_fragment_reassembly (strLit "abcdefg") 3 (by decide) (by decide)
     (by decide)).1 [2, 0, 1] (by decide),
   (claim_C7_fragment_reassembly (strLit "abcdefg") 3 (by decide) (by decide)
     (by decide)).2.1 1 (by decide) [2, 0] (by decide)⟩

end TokPay
